import Mathlib

/-!
Verification development for the pdf-svg repository (SVG → PDF renderer with
CMYK / Lab / spot-color support).

The JavaScript sources are shallowly embedded:

* JavaScript numbers are modelled by the type JSNum: a finite value carries an
  exact rational (JavaScript doubles are binary rationals), and the special
  values NaN, Infinity and -Infinity are separate constructors.  Arithmetic
  and comparisons follow the IEEE special-value rules used by JavaScript
  (modulo rounding, which none of the verified claims depends on).
* Strings are modelled as List Char; a JavaScript string index coincides with
  the byte index of the final output buffer because the writer serializes via
  the one-byte-per-character "binary" (latin1) encoding.
* JavaScript objects used as string-keyed dictionaries (resource registries)
  and Maps are modelled as association lists with replace-or-append update,
  matching the insertion-order and key-count semantics of both.

Sources embedded below: src/pdf-document.js (the current revision, the one
that defines the numeric formatter and the Lab color api), src/pdf-writer.js,
src/svg-path.js, src/svg-to-pdf.js (computeStyle), src/color-space.js and the
packaged lib/index.js color-resolution pipeline (applyColor / parseColor).
-/

namespace PdfSvg

/-- Model of a JavaScript number: a finite (exact rational) value or one of
the IEEE special values NaN, Infinity, -Infinity. -/
inductive JSNum where
  | fin (q : ℚ)
  | nan
  | posInf
  | negInf
deriving DecidableEq, Repr

namespace JSNum

/-- JavaScript isFinite. -/
def isFiniteNum : JSNum → Bool
  | fin _ => true
  | _ => false

/-- JavaScript addition with IEEE special values. -/
def jsAdd : JSNum → JSNum → JSNum
  | nan, _ => nan
  | _, nan => nan
  | posInf, negInf => nan
  | negInf, posInf => nan
  | posInf, _ => posInf
  | _, posInf => posInf
  | negInf, _ => negInf
  | _, negInf => negInf
  | fin a, fin b => fin (a + b)

/-- JavaScript subtraction with IEEE special values. -/
def jsSub : JSNum → JSNum → JSNum
  | nan, _ => nan
  | _, nan => nan
  | posInf, posInf => nan
  | negInf, negInf => nan
  | posInf, _ => posInf
  | negInf, _ => negInf
  | fin _, posInf => negInf
  | fin _, negInf => posInf
  | fin a, fin b => fin (a - b)

/-- JavaScript multiplication with IEEE special values (0 times an infinity
is NaN; signed zero is not modelled). -/
def jsMul : JSNum → JSNum → JSNum
  | nan, _ => nan
  | _, nan => nan
  | posInf, posInf => posInf
  | posInf, negInf => negInf
  | negInf, posInf => negInf
  | negInf, negInf => posInf
  | posInf, fin b => if b = 0 then nan else if 0 < b then posInf else negInf
  | fin a, posInf => if a = 0 then nan else if 0 < a then posInf else negInf
  | negInf, fin b => if b = 0 then nan else if 0 < b then negInf else posInf
  | fin a, negInf => if a = 0 then nan else if 0 < a then negInf else posInf
  | fin a, fin b => fin (a * b)

/-- JavaScript division with IEEE special values (x/0 gives a signed
infinity, 0/0 gives NaN; signed zero is not modelled). -/
def jsDiv : JSNum → JSNum → JSNum
  | nan, _ => nan
  | _, nan => nan
  | posInf, posInf => nan
  | posInf, negInf => nan
  | negInf, posInf => nan
  | negInf, negInf => nan
  | posInf, fin b => if 0 ≤ b then posInf else negInf
  | negInf, fin b => if 0 ≤ b then negInf else posInf
  | fin _, posInf => fin 0
  | fin _, negInf => fin 0
  | fin a, fin b =>
      if b = 0 then (if a = 0 then nan else if 0 < a then posInf else negInf)
      else fin (a / b)

/-- JavaScript Math.max on two arguments (NaN absorbs). -/
def jsMax : JSNum → JSNum → JSNum
  | nan, _ => nan
  | _, nan => nan
  | posInf, _ => posInf
  | _, posInf => posInf
  | negInf, y => y
  | x, negInf => x
  | fin a, fin b => fin (max a b)

/-- JavaScript Math.min on two arguments (NaN absorbs). -/
def jsMin : JSNum → JSNum → JSNum
  | nan, _ => nan
  | _, nan => nan
  | negInf, _ => negInf
  | _, negInf => negInf
  | posInf, y => y
  | x, posInf => x
  | fin a, fin b => fin (min a b)

/-- JavaScript strict equality on numbers (NaN is not equal to anything). -/
def jsStrictEq : JSNum → JSNum → Bool
  | fin a, fin b => a = b
  | posInf, posInf => true
  | negInf, negInf => true
  | _, _ => false

/-- JavaScript less-than on numbers (false whenever NaN is involved). -/
def jsLt : JSNum → JSNum → Bool
  | nan, _ => false
  | _, nan => false
  | negInf, negInf => false
  | negInf, _ => true
  | _, negInf => false
  | posInf, _ => false
  | fin _, posInf => true
  | fin a, fin b => a < b

end JSNum

/-! ### Decimal rendering of numbers (JavaScript Number.prototype.toString) -/

/-- The character for a single decimal digit. -/
def digitChar : ℕ → Char
  | 0 => '0' | 1 => '1' | 2 => '2' | 3 => '3' | 4 => '4'
  | 5 => '5' | 6 => '6' | 7 => '7' | 8 => '8' | 9 => '9'
  | _ => '*'

/-- Inverse of digitChar on decimal digits. -/
def invDigit : Char → ℕ
  | '0' => 0 | '1' => 1 | '2' => 2 | '3' => 3 | '4' => 4
  | '5' => 5 | '6' => 6 | '7' => 7 | '8' => 8 | '9' => 9
  | _ => 10

/-- Decimal digit string of a natural number (most significant first),
the rendering JavaScript uses for nonnegative integers. -/
def natToChars (n : ℕ) : List Char :=
  if _h : n < 10 then [digitChar n]
  else natToChars (n / 10) ++ [digitChar (n % 10)]
termination_by n
decreasing_by
  exact Nat.div_lt_self (by omega) (by norm_num)

/-- Read a decimal digit string back as a natural number. -/
def charsToNat (cs : List Char) : ℕ :=
  cs.foldl (fun acc c => 10 * acc + invDigit c) 0

/-- Least exponent k (searched up to the given bound) with d dividing 10 ^ k;
used to render a rational with a decimal-power denominator exactly, the way
JavaScript prints a double that has a terminating decimal expansion. -/
def findDecExp (d : ℕ) (bound : ℕ) : Option ℕ :=
  (List.range (bound + 1)).find? (fun i => decide (d ∣ 10 ^ i))

/-- k-digit zero-padded decimal rendering of r (assumes r < 10 ^ k). -/
def padDigits (k : ℕ) (r : ℕ) : List Char :=
  let ds := natToChars r
  List.replicate (k - ds.length) '0' ++ ds

/-- Sign prefix of the decimal rendering. -/
def ratSign (q : ℚ) : List Char := if q < 0 then ['-'] else []

/-- Numerator magnitude scaled so that the denominator becomes 10 ^ k
(assumes q.den divides 10 ^ k). -/
def ratScaled (q : ℚ) (k : ℕ) : ℕ := q.num.natAbs * (10 ^ k / q.den)

/-- Decimal rendering of a rational number, matching what JavaScript
Number.prototype.toString prints for a double with a terminating decimal
expansion (every double is a binary rational, so its expansion terminates):
optional sign, integer part, then a dot and the fraction digits with no
trailing zeros (the least exponent gives the shortest expansion).  The
fallback branch (denominator with a prime factor other than 2 and 5,
impossible for a double) renders a fraction and is never reached by the
embedded code paths. -/
def ratToChars (q : ℚ) : List Char :=
  match findDecExp q.den q.den with
  | some k =>
      if k = 0 then ratSign q ++ natToChars (ratScaled q k)
      else ratSign q ++ natToChars (ratScaled q k / 10 ^ k) ++
        '.' :: padDigits k (ratScaled q k % 10 ^ k)
  | none => ratSign q ++ natToChars q.num.natAbs ++ '/' :: natToChars q.den

/-- JavaScript string conversion of a number (template-literal coercion). -/
def jsNumToChars : JSNum → List Char
  | .fin q => ratToChars q
  | .nan => "NaN".data
  | .posInf => "Infinity".data
  | .negInf => "-Infinity".data

/-- Rounding to six decimal places: the value of num.toFixed(6), whose
tie-breaking rule picks the larger candidate, i.e. floor (x * 10^6 + 1/2). -/
def roundTo6 (q : ℚ) : ℚ := (round (q * 1000000) : ℤ) / 1000000

/-- From src/pdf-document.js (_formatNumber) and src/pdf-writer.js
(formatNumber): a non-number or non-finite value becomes "0" (with a console
diagnostic, not modelled), and a finite value is printed as
Number(num.toFixed(6)).toString(), i.e. rounded to six decimals and rendered
without trailing fraction zeros. -/
def formatNumber : JSNum → List Char
  | .fin q => ratToChars (roundTo6 q)
  | _ => ['0']

/-! ### Character-set facts about rendered numbers -/

/-- Characters that can never assemble the tokens "NaN" or "Infinity":
everything except the letters 'a' and 'I'. -/
abbrev goodChar (c : Char) : Prop := c ≠ 'a' ∧ c ≠ 'I'

/-! ### JavaScript parseFloat and string helpers -/

/-- ASCII whitespace recognized by the embedded scanners (the \s class of the
source regexes, restricted to its ASCII members, which are the only ones the
inputs of interest contain). -/
def isWSChar (c : Char) : Bool :=
  c = ' ' || c = '\t' || c = '\n' || c = '\r' || c = '\x0b' || c = '\x0c'

/-- Digit list read as a natural number (most significant first). -/
def digitsVal (ds : List Char) : ℕ := charsToNat ds

/-- JavaScript parseFloat: skip leading whitespace, optional sign, an
"Infinity" literal or decimal digits with optional fraction and exponent;
anything that yields no digits is NaN.  Trailing garbage is ignored. -/
def jsParseFloat (s : List Char) : JSNum :=
  let s1 := s.dropWhile isWSChar
  let (neg, s2) : Bool × List Char :=
    match s1 with
    | '-' :: t => (true, t)
    | '+' :: t => (false, t)
    | _ => (false, s1)
  if "Infinity".data.isPrefixOf s2 then
    (if neg then JSNum.negInf else JSNum.posInf)
  else
    let intDs := s2.takeWhile Char.isDigit
    let s3 := s2.dropWhile Char.isDigit
    let (fracDs, s4) : List Char × List Char :=
      match s3 with
      | '.' :: t => (t.takeWhile Char.isDigit, t.dropWhile Char.isDigit)
      | _ => ([], s3)
    if intDs = [] ∧ fracDs = [] then JSNum.nan
    else
      let mant : ℚ :=
        ((digitsVal intDs : ℚ) * ((10 ^ fracDs.length : ℕ) : ℚ) + (digitsVal fracDs : ℚ)) /
          ((10 ^ fracDs.length : ℕ) : ℚ)
      let scaled : ℚ :=
        match s4 with
        | 'e' :: t | 'E' :: t =>
            (match t with
             | '-' :: u => if u.takeWhile Char.isDigit = [] then mant
                 else mant / ((10 ^ digitsVal (u.takeWhile Char.isDigit) : ℕ) : ℚ)
             | '+' :: u => if u.takeWhile Char.isDigit = [] then mant
                 else mant * ((10 ^ digitsVal (u.takeWhile Char.isDigit) : ℕ) : ℚ)
             | u => if u.takeWhile Char.isDigit = [] then mant
                 else mant * ((10 ^ digitsVal (u.takeWhile Char.isDigit) : ℕ) : ℚ))
        | _ => mant
      JSNum.fin (if neg then -scaled else scaled)

/-- ASCII lowercase conversion of one character (String.prototype.toLowerCase
restricted to ASCII, which covers every color token of interest). -/
def asciiLower (c : Char) : Char :=
  if 'A' ≤ c ∧ c ≤ 'Z' then Char.ofNat (c.toNat + 32) else c

/-- ASCII toLowerCase on a string. -/
def toLowerChars (s : List Char) : List Char := s.map asciiLower

/-! ### Association lists: JavaScript objects / Maps used as dictionaries -/

/-- Lookup in an insertion-ordered string-keyed dictionary. -/
def lookupKey {α : Type} : List (List Char × α) → List Char → Option α
  | [], _ => none
  | (k', v) :: t, k => if k' = k then some v else lookupKey t k

/-- Replace-or-append update: the semantics of both obj[key] = v on a
JavaScript object and map.set(key, v) on a Map (insertion order kept, an
existing key keeps its position). -/
def setKey {α : Type} : List (List Char × α) → List Char → α → List (List Char × α)
  | [], k, v => [(k, v)]
  | (k', v') :: t, k, v =>
      if k' = k then (k', v) :: t else (k', v') :: setKey t k v

/-- Number of entries stored under a given key. -/
def countKey {α : Type} : List (List Char × α) → List Char → ℕ
  | [], _ => 0
  | (k', _) :: t, k => (if k' = k then 1 else 0) + countKey t k

/-! ### The document model: src/pdf-document.js (class PDFDocument)

Transliteration notes: the console.warn diagnostics are not modelled; the
rotate helper (which feeds Math.cos/Math.sin results to transform) is covered
by transform itself, whose arguments are universally quantified; the writer
is a separate model below. -/

/-- Clamp the Lab lightness: Math.max(0, Math.min(100, L)). -/
def clampL (v : JSNum) : JSNum := JSNum.jsMax (.fin 0) (JSNum.jsMin (.fin 100) v)

/-- Clamp a Lab chroma component: Math.max(-128, Math.min(127, v)). -/
def clampAB (v : JSNum) : JSNum := JSNum.jsMax (.fin (-128)) (JSNum.jsMin (.fin 127) v)

/-- The CMYK or Lab fallback carried by a registered spot color. -/
inductive SpotFallback where
  | cmyk (c m y k : JSNum)
  | lab (L a b : JSNum)
deriving DecidableEq, Repr

/-- One record in the document's spotColors map (the resourceName field is
written by defineSpotColor / defineLabSpotColor right after registering the
resource). -/
structure SpotColorRec where
  name : List Char
  fallback : SpotFallback
  resourceName : List Char
deriving DecidableEq, Repr

/-- The current fill or stroke color of a document; the spot variant holds
the registered record the way the JS object holds a reference to it. -/
inductive Color where
  | rgb (r g b : JSNum)
  | cmyk (c m y k : JSNum)
  | lab (L a b : JSNum)
  | spot (name : List Char) (tint : JSNum) (spotColor : SpotColorRec)
deriving DecidableEq, Repr

/-- One entry of resources.ColorSpace: a Separation with a CMYK tint
transform, a named Lab spot entry (type "Lab" with a name), or the generic
Lab space (type "Lab" without a name; its whitePoint [0.95047, 1, 1.08883]
and range [0, 100, -128, 127, -128, 127] are fixed literals). -/
inductive CSResource where
  | separation (name : List Char) (c m y k : JSNum)
  | labSpot (name : List Char) (L a b : JSNum)
  | labGeneric
deriving DecidableEq, Repr

/-- One entry of resources.ExtGState: { ca: v } for fill, { CA: v } for
stroke. -/
structure GStateRec where
  isFill : Bool
  value : JSNum
deriving DecidableEq, Repr

/-- A six-entry affine matrix [a, b, c, d, e, f]. -/
structure Matrix6 where
  a : JSNum
  b : JSNum
  c : JSNum
  d : JSNum
  e : JSNum
  f : JSNum
deriving DecidableEq, Repr

/-- The mutable state of one PDFDocument (src/pdf-document.js constructor). -/
structure PDFDocument where
  width : JSNum
  height : JSNum
  currentColor : Color
  currentStrokeColor : Color
  currentLineWidth : JSNum
  currentOpacityFill : JSNum
  currentOpacityStroke : JSNum
  spotColors : List (List Char × SpotColorRec)
  contentStream : List (List Char)
  resColorSpace : List (List Char × CSResource)
  resExtGState : List (List Char × GStateRec)
  ctm : Matrix6
  ctmStack : List Matrix6
deriving DecidableEq, Repr

namespace PDFDocument

/-- new PDFDocument(options) with the A4 defaults. -/
def newDoc : PDFDocument where
  width := .fin (59528 / 100)
  height := .fin (84189 / 100)
  currentColor := .rgb (.fin 0) (.fin 0) (.fin 0)
  currentStrokeColor := .rgb (.fin 0) (.fin 0) (.fin 0)
  currentLineWidth := .fin 1
  currentOpacityFill := .fin 1
  currentOpacityStroke := .fin 1
  spotColors := []
  contentStream := []
  resColorSpace := []
  resExtGState := []
  ctm := ⟨.fin 1, .fin 0, .fin 0, .fin 1, .fin 0, .fin 0⟩
  ctmStack := []

/-- Append one operator line to the content stream. -/
def push (d : PDFDocument) (s : List Char) : PDFDocument :=
  { d with contentStream := d.contentStream ++ [s] }

def moveTo (d : PDFDocument) (x y : JSNum) : PDFDocument :=
  d.push (formatNumber x ++ ' ' :: formatNumber y ++ " m".data)

def lineTo (d : PDFDocument) (x y : JSNum) : PDFDocument :=
  d.push (formatNumber x ++ ' ' :: formatNumber y ++ " l".data)

def bezierCurveTo (d : PDFDocument) (cp1x cp1y cp2x cp2y x y : JSNum) : PDFDocument :=
  d.push (formatNumber cp1x ++ ' ' :: formatNumber cp1y ++ ' ' ::
    formatNumber cp2x ++ ' ' :: formatNumber cp2y ++ ' ' ::
    formatNumber x ++ ' ' :: formatNumber y ++ " c".data)

/-- quadraticCurveTo duplicates the quadratic control point as both cubic
control points (the intentionally simplified conversion of the drawing api). -/
def quadraticCurveTo (d : PDFDocument) (cpx cpy x y : JSNum) : PDFDocument :=
  d.bezierCurveTo cpx cpy cpx cpy x y

def closePath (d : PDFDocument) : PDFDocument := d.push "h".data

def rect (d : PDFDocument) (x y w h : JSNum) : PDFDocument :=
  d.push (formatNumber x ++ ' ' :: formatNumber y ++ ' ' ::
    formatNumber w ++ ' ' :: formatNumber h ++ " re".data)

/-- The Bezier quarter-arc constant kappa = 0.5522847498. -/
def kappa : JSNum := .fin (5522847498 / 10000000000)

def circle (d : PDFDocument) (cx cy r : JSNum) : PDFDocument :=
  let ox := JSNum.jsMul r kappa
  let oy := JSNum.jsMul r kappa
  let sub := JSNum.jsSub
  let add := JSNum.jsAdd
  (((((d.moveTo (sub cx r) cy).bezierCurveTo (sub cx r) (add cy oy) (sub cx ox) (add cy r) cx
      (add cy r)).bezierCurveTo (add cx ox) (add cy r) (add cx r) (add cy oy) (add cx r)
      cy).bezierCurveTo (add cx r) (sub cy oy) (add cx ox) (sub cy r) cx
      (sub cy r)).bezierCurveTo (sub cx ox) (sub cy r) (sub cx r) (sub cy oy) (sub cx r)
      cy).closePath

def ellipse (d : PDFDocument) (cx cy rx ry : JSNum) : PDFDocument :=
  let ox := JSNum.jsMul rx kappa
  let oy := JSNum.jsMul ry kappa
  let sub := JSNum.jsSub
  let add := JSNum.jsAdd
  (((((d.moveTo (sub cx rx) cy).bezierCurveTo (sub cx rx) (add cy oy) (sub cx ox) (add cy ry) cx
      (add cy ry)).bezierCurveTo (add cx ox) (add cy ry) (add cx rx) (add cy oy) (add cx rx)
      cy).bezierCurveTo (add cx rx) (sub cy oy) (add cx ox) (sub cy ry) cx
      (sub cy ry)).bezierCurveTo (sub cx ox) (sub cy ry) (sub cx rx) (sub cy oy) (sub cx rx)
      cy).closePath

def lineWidth (d : PDFDocument) (w : JSNum) : PDFDocument :=
  { d with currentLineWidth := w }

def fillOpacity (d : PDFDocument) (o : JSNum) : PDFDocument :=
  { d with currentOpacityFill := o }

def strokeOpacity (d : PDFDocument) (o : JSNum) : PDFDocument :=
  { d with currentOpacityStroke := o }

def opacity (d : PDFDocument) (o : JSNum) : PDFDocument :=
  { d with currentOpacityFill := o, currentOpacityStroke := o }

/-- fillColor with three numeric arguments (0..255 each / 255). -/
def fillColorRGB (d : PDFDocument) (r g b : JSNum) : PDFDocument :=
  { d with currentColor := (.rgb (JSNum.jsDiv r (.fin 255)) (JSNum.jsDiv g (.fin 255))
      (JSNum.jsDiv b (.fin 255))) }

def strokeColorRGB (d : PDFDocument) (r g b : JSNum) : PDFDocument :=
  { d with currentStrokeColor := (.rgb (JSNum.jsDiv r (.fin 255)) (JSNum.jsDiv g (.fin 255))
      (JSNum.jsDiv b (.fin 255))) }

/-- fillColorCMYK (0..100 each / 100). -/
def fillColorCMYK (d : PDFDocument) (c m y k : JSNum) : PDFDocument :=
  { d with currentColor := (.cmyk (JSNum.jsDiv c (.fin 100)) (JSNum.jsDiv m (.fin 100))
      (JSNum.jsDiv y (.fin 100)) (JSNum.jsDiv k (.fin 100))) }

def strokeColorCMYK (d : PDFDocument) (c m y k : JSNum) : PDFDocument :=
  { d with currentStrokeColor := (.cmyk (JSNum.jsDiv c (.fin 100)) (JSNum.jsDiv m (.fin 100))
      (JSNum.jsDiv y (.fin 100)) (JSNum.jsDiv k (.fin 100))) }

def fillColorLab (d : PDFDocument) (L a b : JSNum) : PDFDocument :=
  { d with currentColor := .lab (clampL L) (clampAB a) (clampAB b) }

def strokeColorLab (d : PDFDocument) (L a b : JSNum) : PDFDocument :=
  { d with currentStrokeColor := .lab (clampL L) (clampAB a) (clampAB b) }

/-- Name of the next ColorSpace resource: CS followed by the number of
registered color spaces plus one. -/
def csName (n : ℕ) : List Char := "CS".data ++ natToChars n

/-- Name of the next generic Lab resource: LAB followed by the registry size
plus one. -/
def labName (n : ℕ) : List Char := "LAB".data ++ natToChars n

/-- defineSpotColor(name, cmykFallback): register the spot record, allocate
a ColorSpace resource named after the current registry size, and remember
that resource name on the record. -/
def defineSpotColor (d : PDFDocument) (name : List Char) (c m y k : JSNum) : PDFDocument :=
  let fallback := SpotFallback.cmyk (JSNum.jsDiv c (.fin 100)) (JSNum.jsDiv m (.fin 100))
    (JSNum.jsDiv y (.fin 100)) (JSNum.jsDiv k (.fin 100))
  let colorSpaceName := csName (d.resColorSpace.length + 1)
  let spotColor : SpotColorRec := ⟨name, fallback, colorSpaceName⟩
  { d with
    spotColors := setKey d.spotColors name spotColor
    resColorSpace := setKey d.resColorSpace colorSpaceName
      (match fallback with
       | .cmyk fc fm fy fk => CSResource.separation name fc fm fy fk
       | .lab fL fa fb => CSResource.labSpot name fL fa fb) }

/-- defineSpotColorCMYK(name, c, m, y, k). -/
def defineSpotColorCMYK (d : PDFDocument) (name : List Char) (c m y k : JSNum) : PDFDocument :=
  d.defineSpotColor name c m y k

/-- defineLabSpotColor(name, labFallback) with the clamped Lab fallback. -/
def defineLabSpotColor (d : PDFDocument) (name : List Char) (L a b : JSNum) : PDFDocument :=
  let fallback := SpotFallback.lab (clampL L) (clampAB a) (clampAB b)
  let colorSpaceName := csName (d.resColorSpace.length + 1)
  let spotColor : SpotColorRec := ⟨name, fallback, colorSpaceName⟩
  { d with
    spotColors := setKey d.spotColors name spotColor
    resColorSpace := setKey d.resColorSpace colorSpaceName
      (match fallback with
       | .cmyk fc fm fy fk => CSResource.separation name fc fm fy fk
       | .lab fL fa fb => CSResource.labSpot name fL fa fb) }

/-- fillSpotColor(name, tint): only acts when the name is registered. -/
def fillSpotColor (d : PDFDocument) (name : List Char) (tint : JSNum) : PDFDocument :=
  match lookupKey d.spotColors name with
  | some spotColor => { d with currentColor := .spot name tint spotColor }
  | none => d

def strokeSpotColor (d : PDFDocument) (name : List Char) (tint : JSNum) : PDFDocument :=
  match lookupKey d.spotColors name with
  | some spotColor => { d with currentStrokeColor := .spot name tint spotColor }
  | none => d

def save (d : PDFDocument) : PDFDocument :=
  { d.push "q".data with ctmStack := d.ctmStack ++ [d.ctm] }

def restore (d : PDFDocument) : PDFDocument :=
  let d1 := d.push "Q".data
  match d.ctmStack.getLast? with
  | some m => { d1 with ctm := m, ctmStack := d.ctmStack.dropLast }
  | none => d1

def transform (d : PDFDocument) (a b c dd e f : JSNum) : PDFDocument :=
  let d1 := d.push (formatNumber a ++ ' ' :: formatNumber b ++ ' ' ::
    formatNumber c ++ ' ' :: formatNumber dd ++ ' ' ::
    formatNumber e ++ ' ' :: formatNumber f ++ " cm".data)
  let m := d.ctm
  let mul := JSNum.jsMul
  let add := JSNum.jsAdd
  { d1 with ctm :=
      ⟨add (mul a m.a) (mul b m.c), add (mul a m.b) (mul b m.d),
       add (mul c m.a) (mul dd m.c), add (mul c m.b) (mul dd m.d),
       add (add (mul e m.a) (mul f m.c)) m.e, add (add (mul e m.b) (mul f m.d)) m.f⟩ }

def translate (d : PDFDocument) (x y : JSNum) : PDFDocument :=
  d.transform (.fin 1) (.fin 0) (.fin 0) (.fin 1) x y

def scale (d : PDFDocument) (sx sy : JSNum) : PDFDocument :=
  d.transform sx (.fin 0) (.fin 0) sy (.fin 0) (.fin 0)

/-- _ensureLabColorSpace: return the first generic Lab entry's name, or
create one named LAB(size + 1). -/
def ensureLabColorSpace (d : PDFDocument) : List Char × PDFDocument :=
  match d.resColorSpace.find? (fun p => p.2 = CSResource.labGeneric) with
  | some p => (p.1, d)
  | none =>
      let colorSpaceName := labName (d.resColorSpace.length + 1)
      (colorSpaceName,
        { d with resColorSpace := setKey d.resColorSpace colorSpaceName .labGeneric })

/-- _setColor(color, type): emit the color selection operators for the given
color, for fill (type "fill") or stroke. -/
def setColor (d : PDFDocument) (color : Color) (isFill : Bool) : PDFDocument :=
  match color with
  | .rgb r g b =>
      d.push (formatNumber r ++ ' ' :: formatNumber g ++ ' ' :: formatNumber b ++
        (if isFill then " rg".data else " RG".data))
  | .cmyk c m y k =>
      d.push (formatNumber c ++ ' ' :: formatNumber m ++ ' ' :: formatNumber y ++ ' ' ::
        formatNumber k ++ (if isFill then " k".data else " K".data))
  | .lab L a b =>
      let (labColorSpaceName, d1) := d.ensureLabColorSpace
      (d1.push ('/' :: labColorSpaceName ++ (if isFill then " cs".data else " CS".data))).push
        (formatNumber (JSNum.jsDiv L (.fin 100)) ++ ' ' ::
          formatNumber (JSNum.jsDiv (JSNum.jsAdd a (.fin 128)) (.fin 255)) ++ ' ' ::
          formatNumber (JSNum.jsDiv (JSNum.jsAdd b (.fin 128)) (.fin 255)) ++
          (if isFill then " scn".data else " SCN".data))
  | .spot _ tint spotColor =>
      (d.push ('/' :: spotColor.resourceName ++
        (if isFill then " cs".data else " CS".data))).push
        (formatNumber tint ++ (if isFill then " scn".data else " SCN".data))

/-- _getOpacityGState(type, value): key "fill_v" or "stroke_v"; register the
graphics state lazily (a JavaScript object value is always truthy, so the
falsy test is a presence test). -/
def getOpacityGState (d : PDFDocument) (isFill : Bool) (value : JSNum) :
    List Char × PDFDocument :=
  let key := (if isFill then "fill_".data else "stroke_".data) ++ jsNumToChars value
  match lookupKey d.resExtGState key with
  | some _ => (key, d)
  | none => (key, { d with resExtGState := setKey d.resExtGState key ⟨isFill, value⟩ })

/-- _setFillOpacity: only acts when the fill opacity is below 1. -/
def setFillOpacity (d : PDFDocument) : PDFDocument :=
  if JSNum.jsLt d.currentOpacityFill (.fin 1) then
    let (gsName, d1) := d.getOpacityGState true d.currentOpacityFill
    d1.push ('/' :: gsName ++ " gs".data)
  else d

def setStrokeOpacity (d : PDFDocument) : PDFDocument :=
  if JSNum.jsLt d.currentOpacityStroke (.fin 1) then
    let (gsName, d1) := d.getOpacityGState false d.currentOpacityStroke
    d1.push ('/' :: gsName ++ " gs".data)
  else d

def setLineWidth (d : PDFDocument) : PDFDocument :=
  d.push (formatNumber d.currentLineWidth ++ " w".data)

/-- fill(fillRule): color, opacity, then the paint operator (f* for the
"evenodd" rule). -/
def fill (d : PDFDocument) (evenodd : Bool) : PDFDocument :=
  (((d.setColor d.currentColor true).setFillOpacity).push
    (if evenodd then "f*".data else "f".data))

def stroke (d : PDFDocument) : PDFDocument :=
  ((((d.setColor d.currentStrokeColor false).setStrokeOpacity).setLineWidth).push "S".data)

def fillAndStroke (d : PDFDocument) (evenodd : Bool) : PDFDocument :=
  let d1 := d.setColor d.currentColor true
  let d2 := d1.setColor d1.currentStrokeColor false
  ((d2.setFillOpacity.setStrokeOpacity).setLineWidth).push
    (if evenodd then "B*".data else "B".data)

end PDFDocument

/-! ### The serializer model: src/pdf-writer.js (PDFWriter.generatePDF)

The byte-assembly loop of generatePDF (lines building the pdf string, the
cross-reference table and the trailer) is embedded parametrically in the
object bodies: generatePDF always pairs every allocateObject call with a
body, so the bodies are given as a list indexed by reference minus one (a
reserved-but-never-filled slot is kept as none, matching the null slot and
the if (obj) skip in the loop).  Dictionary building, stream compression and
XMP metadata only determine the body contents, which the cross-reference
offsets do not depend on.  A character of the accumulated JavaScript string
is one byte of the final buffer (latin1 Buffer encoding). -/

/-- The fixed header: format line plus binary marker line. -/
def pdfHeader : List Char := "%PDF-1.4\n%\xFF\xFF\xFF\xFF\n".data

/-- The token that starts object i in the serialized file. -/
def objToken (i : ℕ) : List Char := natToChars i ++ " 0 obj".data

/-- The object-emission loop (for i = 1..objectCount): record the current
length as the cross-reference offset, then append "i 0 obj\n", the body and
"\nendobj\n"; a null slot is skipped and gets no offset. -/
def emitObjs : ℕ → List (Option (List Char)) → List Char →
    List Char × List (Option ℕ)
  | _, [], pdf => (pdf, [])
  | i, none :: rest, pdf =>
      let r := emitObjs (i + 1) rest pdf
      (r.1, none :: r.2)
  | i, some body :: rest, pdf =>
      let pdf1 := pdf ++ objToken i ++ '\n' :: body ++ "\nendobj\n".data
      let r := emitObjs (i + 1) rest pdf1
      (r.1, some pdf.length :: r.2)

/-- The recorded cross-reference offsets (absolute byte positions). -/
def xrefEntries (objs : List (Option (List Char))) : List (Option ℕ) :=
  (emitObjs 1 objs pdfHeader).2

/-- The offset written to the table for reference i + 1 (this.xref[i] || 0). -/
def xrefEntry (objs : List (Option (List Char))) (i : ℕ) : ℕ :=
  match (xrefEntries objs).get? i with
  | some (some off) => off
  | _ => 0

/-- offset.toString().padStart(10, "0"). -/
def padTo10 (ds : List Char) : List Char := List.replicate (10 - ds.length) '0' ++ ds

/-- One cross-reference table line: the 10-digit zero-padded offset,
generation 00000, type n. -/
def xrefLine (off : ℕ) : List Char := padTo10 (natToChars off) ++ " 00000 n \n".data

/-- Concatenation of a list of character lists. -/
def joinAll : List (List Char) → List Char
  | [] => []
  | s :: t => s ++ joinAll t

/-- The full serialized file: header, objects, cross-reference section and
trailer (catalogRef is the first allocated reference, passed explicitly). -/
def generatePDFBytes (catalogRef : ℕ) (objs : List (Option (List Char))) : List Char :=
  let pdf1 := (emitObjs 1 objs pdfHeader).1
  let xrefOffset := pdf1.length
  pdf1 ++ "xref\n0 ".data ++ natToChars (objs.length + 1) ++ '\n' ::
    "0000000000 65535 f \n".data ++
    joinAll ((xrefEntries objs).map (fun o => xrefLine (match o with | some off => off | none => 0))) ++
    "trailer\n<< /Size ".data ++ natToChars (objs.length + 1) ++ " /Root ".data ++
    natToChars catalogRef ++ " 0 R >>\nstartxref\n".data ++
    natToChars xrefOffset ++ "\n%%EOF".data

/-! ### Further projections used by the claims -/

/-- Resource name carried by a spot color variant. -/
def Color.spotResourceName : Color → Option (List Char)
  | .spot _ _ sc => some sc.resourceName
  | _ => none

/-- Number of generic Lab entries (type "Lab" without a name) in a
ColorSpace registry. -/
def genericLabCount : List (List Char × CSResource) → ℕ
  | [] => 0
  | (_, cs) :: t => (if cs = CSResource.labGeneric then 1 else 0) + genericLabCount t

/-- The content stream joined with newlines (doc.contentStream.join("\n")). -/
def joinNL : List (List Char) → List Char
  | [] => []
  | [s] => s
  | s :: t => s ++ '\n' :: joinNL t

/-! ### The path interpreter model: src/svg-path.js (class SVGPath)

Commands are normalized to move/line/cubic/close.  The elliptical-arc
flattening (arcTo) uses Math.sin/cos/atan2/sqrt, which have no exact
rational embedding; only its degenerate zero-radius branch (a straight
line, per the source) is modelled, and no claim in scope depends on the
trigonometric branch.  The JavaScript undefined produced by reading past
the end of the argument array is modelled as NaN (both are replaced by zero
by the numeric formatter downstream, and no claim distinguishes them). -/

/-- A normalized path command ({type:"M"|"L"|"C"|"Z"}). -/
inductive PathCmd where
  | move (x y : JSNum)
  | line (x y : JSNum)
  | curve (cp1x cp1y cp2x cp2y x y : JSNum)
  | close
deriving DecidableEq, Repr

/-- The interpreter state (constructor of SVGPath). -/
structure PathState where
  commands : List PathCmd
  currentX : JSNum
  currentY : JSNum
  startX : JSNum
  startY : JSNum
  lastCommand : List Char
  lastControlX : JSNum
  lastControlY : JSNum
deriving DecidableEq, Repr

namespace PathState

def initial : PathState :=
  ⟨[], .fin 0, .fin 0, .fin 0, .fin 0, [], .fin 0, .fin 0⟩

def pmoveTo (st : PathState) (x y : JSNum) : PathState :=
  { st with commands := st.commands ++ [.move x y],
            currentX := x, currentY := y, startX := x, startY := y,
            lastCommand := ['M'] }

def plineTo (st : PathState) (x y : JSNum) : PathState :=
  { st with commands := st.commands ++ [.line x y],
            currentX := x, currentY := y, lastCommand := ['L'] }

def pbezierCurveTo (st : PathState) (cp1x cp1y cp2x cp2y x y : JSNum) : PathState :=
  { st with commands := st.commands ++ [.curve cp1x cp1y cp2x cp2y x y],
            currentX := x, currentY := y,
            lastControlX := cp2x, lastControlY := cp2y,
            lastCommand := ['C'] }

/-- smoothBezierCurveTo: reflect the previous control point about the
current point only after a C or S command, else use the current point. -/
def psmoothBezierCurveTo (st : PathState) (cp2x cp2y x y : JSNum) : PathState :=
  let cp1x := if st.lastCommand = ['C'] ∨ st.lastCommand = ['S'] then
      JSNum.jsSub (JSNum.jsMul (.fin 2) st.currentX) st.lastControlX
    else st.currentX
  let cp1y := if st.lastCommand = ['C'] ∨ st.lastCommand = ['S'] then
      JSNum.jsSub (JSNum.jsMul (.fin 2) st.currentY) st.lastControlY
    else st.currentY
  { st.pbezierCurveTo cp1x cp1y cp2x cp2y x y with lastCommand := ['S'] }

/-- quadraticCurveTo: true degree elevation by the 2/3 interpolation, with
the quadratic control point remembered for smooth continuation. -/
def pquadraticCurveTo (st : PathState) (cpx cpy x y : JSNum) : PathState :=
  let twoThirds : JSNum := .fin (2 / 3)
  let cp1x := JSNum.jsAdd st.currentX (JSNum.jsMul twoThirds (JSNum.jsSub cpx st.currentX))
  let cp1y := JSNum.jsAdd st.currentY (JSNum.jsMul twoThirds (JSNum.jsSub cpy st.currentY))
  let cp2x := JSNum.jsAdd x (JSNum.jsMul twoThirds (JSNum.jsSub cpx x))
  let cp2y := JSNum.jsAdd y (JSNum.jsMul twoThirds (JSNum.jsSub cpy y))
  { st.pbezierCurveTo cp1x cp1y cp2x cp2y x y with
      lastControlX := cpx, lastControlY := cpy, lastCommand := ['Q'] }

/-- smoothQuadraticCurveTo: reflect only after a Q or T command. -/
def psmoothQuadraticCurveTo (st : PathState) (x y : JSNum) : PathState :=
  let cpx := if st.lastCommand = ['Q'] ∨ st.lastCommand = ['T'] then
      JSNum.jsSub (JSNum.jsMul (.fin 2) st.currentX) st.lastControlX
    else st.currentX
  let cpy := if st.lastCommand = ['Q'] ∨ st.lastCommand = ['T'] then
      JSNum.jsSub (JSNum.jsMul (.fin 2) st.currentY) st.lastControlY
    else st.currentY
  { st.pquadraticCurveTo cpx cpy x y with lastCommand := ['T'] }

/-- arcTo, degenerate branch only (rx === 0 or ry === 0 draws a line); the
trigonometric flattening is outside the rational embedding. -/
def parcTo (st : PathState) (rx ry _rot _large _sweep x y : JSNum) : PathState :=
  if JSNum.jsStrictEq rx (.fin 0) || JSNum.jsStrictEq ry (.fin 0) then st.plineTo x y
  else { st with lastCommand := ['A'] }

def pclosePath (st : PathState) : PathState :=
  { st with commands := st.commands ++ [.close],
            currentX := st.startX, currentY := st.startY, lastCommand := ['Z'] }

end PathState

/-- Argument fetch: args[i], undefined past the end (modelled as NaN). -/
def argAt (args : List JSNum) (i : ℕ) : JSNum :=
  match args.get? i with
  | some v => v
  | none => .nan

/-- Pairs loop with the i + 1 < args.length guard (implicit lineTo after M). -/
def lineToPairsGuarded (st : PathState) : List JSNum → PathState
  | a :: b :: rest => lineToPairsGuarded (st.plineTo a b) rest
  | _ => st

/-- A two-argument command repeated over the argument list (step 2, no
bounds guard on the second index). -/
def chunk2 (f : PathState → JSNum → JSNum → PathState) :
    PathState → List JSNum → PathState
  | st, [] => st
  | st, [a] => f st a .nan
  | st, a :: b :: rest => chunk2 f (f st a b) rest

/-- A one-argument command repeated over the argument list. -/
def chunk1 (f : PathState → JSNum → PathState) : PathState → List JSNum → PathState
  | st, [] => st
  | st, a :: rest => chunk1 f (f st a) rest

/-- A four-argument command repeated over the argument list (step 4). -/
def chunk4 (f : PathState → JSNum → JSNum → JSNum → JSNum → PathState) :
    PathState → List JSNum → PathState
  | st, [] => st
  | st, a :: rest =>
      match rest with
      | b :: c :: d :: rest' => chunk4 f (f st a b c d) rest'
      | _ => f st a (argAt rest 0) (argAt rest 1) (argAt rest 2)

/-- A six-argument command repeated over the argument list (step 6). -/
def chunk6 (f : PathState → JSNum → JSNum → JSNum → JSNum → JSNum → JSNum → PathState) :
    PathState → List JSNum → PathState
  | st, [] => st
  | st, a :: rest =>
      match rest with
      | b :: c :: d :: e :: g :: rest' => chunk6 f (f st a b c d e g) rest'
      | _ => f st a (argAt rest 0) (argAt rest 1) (argAt rest 2) (argAt rest 3) (argAt rest 4)

/-- A seven-argument command repeated over the argument list (step 7). -/
def chunk7
    (f : PathState → JSNum → JSNum → JSNum → JSNum → JSNum → JSNum → JSNum → PathState) :
    PathState → List JSNum → PathState
  | st, [] => st
  | st, a :: rest =>
      match rest with
      | b :: c :: d :: e :: g :: h :: rest' => chunk7 f (f st a b c d e g h) rest'
      | _ => f st a (argAt rest 0) (argAt rest 1) (argAt rest 2) (argAt rest 3) (argAt rest 4)
          (argAt rest 5)

/-- processCommand(type, args): dispatch one command letter over its
(possibly repeated) argument groups. -/
def processCommand (st : PathState) (c : Char) (args : List JSNum) : PathState :=
  match c with
  | 'M' =>
      if args.length ≥ 2 then
        lineToPairsGuarded (st.pmoveTo (argAt args 0) (argAt args 1)) (args.drop 2)
      else st
  | 'm' =>
      let st1 := st.pmoveTo (JSNum.jsAdd st.currentX (argAt args 0))
        (JSNum.jsAdd st.currentY (argAt args 1))
      chunk2 (fun s a b => s.plineTo (JSNum.jsAdd s.currentX a) (JSNum.jsAdd s.currentY b))
        st1 (args.drop 2)
  | 'L' => chunk2 (fun s a b => s.plineTo a b) st args
  | 'l' => chunk2 (fun s a b => s.plineTo (JSNum.jsAdd s.currentX a) (JSNum.jsAdd s.currentY b))
      st args
  | 'H' => chunk1 (fun s a => s.plineTo a s.currentY) st args
  | 'h' => chunk1 (fun s a => s.plineTo (JSNum.jsAdd s.currentX a) s.currentY) st args
  | 'V' => chunk1 (fun s a => s.plineTo s.currentX a) st args
  | 'v' => chunk1 (fun s a => s.plineTo s.currentX (JSNum.jsAdd s.currentY a)) st args
  | 'C' => chunk6 (fun s a b c2 d e g => s.pbezierCurveTo a b c2 d e g) st args
  | 'c' => chunk6 (fun s a b c2 d e g => s.pbezierCurveTo
      (JSNum.jsAdd s.currentX a) (JSNum.jsAdd s.currentY b)
      (JSNum.jsAdd s.currentX c2) (JSNum.jsAdd s.currentY d)
      (JSNum.jsAdd s.currentX e) (JSNum.jsAdd s.currentY g)) st args
  | 'S' => chunk4 (fun s a b c2 d => s.psmoothBezierCurveTo a b c2 d) st args
  | 's' => chunk4 (fun s a b c2 d => s.psmoothBezierCurveTo
      (JSNum.jsAdd s.currentX a) (JSNum.jsAdd s.currentY b)
      (JSNum.jsAdd s.currentX c2) (JSNum.jsAdd s.currentY d)) st args
  | 'Q' => chunk4 (fun s a b c2 d => s.pquadraticCurveTo a b c2 d) st args
  | 'q' => chunk4 (fun s a b c2 d => s.pquadraticCurveTo
      (JSNum.jsAdd s.currentX a) (JSNum.jsAdd s.currentY b)
      (JSNum.jsAdd s.currentX c2) (JSNum.jsAdd s.currentY d)) st args
  | 'T' => chunk2 (fun s a b => s.psmoothQuadraticCurveTo a b) st args
  | 't' => chunk2 (fun s a b => s.psmoothQuadraticCurveTo
      (JSNum.jsAdd s.currentX a) (JSNum.jsAdd s.currentY b)) st args
  | 'A' => chunk7 (fun s a b c2 d e g h => s.parcTo a b c2 d e g h) st args
  | 'a' => chunk7 (fun s a b c2 d e g h => s.parcTo a b c2 d e
      (JSNum.jsAdd s.currentX g) (JSNum.jsAdd s.currentY h)) st args
  | 'Z' => st.pclosePath
  | 'z' => st.pclosePath
  | _ => st

/-- Is this one of the twenty command letters. -/
def isCmdLetter (c : Char) : Bool :=
  "MmLlHhVvCcSsQqTtAaZz".data.contains c

/-- The manual number scanner of parse (optional minus sign, digits,
optional dot and digits).  The source's extra branch for a number starting
with a bare dot when nothing was consumed is unreachable (the preceding
block already consumes a leading dot) and is therefore not represented. -/
def scanNumber (cs : List Char) : List Char × List Char :=
  let sr : List Char × List Char :=
    match cs with
    | '-' :: t => (['-'], t)
    | _ => ([], cs)
  let ds := sr.2.takeWhile Char.isDigit
  let cs2 := sr.2.dropWhile Char.isDigit
  match cs2 with
  | '.' :: t =>
      (sr.1 ++ ds ++ '.' :: t.takeWhile Char.isDigit, t.dropWhile Char.isDigit)
  | _ => (sr.1 ++ ds, cs2)

/-- The argument-collection loop of parse: skip whitespace and commas, stop
at the next command letter, scan numbers; a lone minus sign is unconsumed
and ends the arguments; a character that can start no number leaves the
position unchanged (the source then spins forever; the fuel bounds the
model instead). -/
def parseArgs : ℕ → List Char → List JSNum × List Char
  | 0, cs => ([], cs)
  | fuel + 1, cs =>
      let cs1 := cs.dropWhile (fun c => isWSChar c || c = ',')
      match cs1 with
      | [] => ([], [])
      | c :: _ =>
          if isCmdLetter c then ([], cs1)
          else
            let sn := scanNumber cs1
            if sn.1 ≠ [] ∧ sn.1 ≠ ['-'] then
              let r := parseArgs fuel sn.2
              (jsParseFloat sn.1 :: r.1, r.2)
            else if sn.1 = ['-'] then ([], cs1)
            else parseArgs fuel cs1

/-- The outer loop of parse: skip whitespace, read a command letter (an
invalid letter is skipped with a diagnostic), collect arguments, and
dispatch when there are arguments or the command is Z/z. -/
def parseLoop : ℕ → List Char → PathState → PathState
  | 0, _, st => st
  | fuel + 1, cs, st =>
      let cs1 := cs.dropWhile isWSChar
      match cs1 with
      | [] => st
      | c :: rest =>
          if ¬ isCmdLetter c then parseLoop fuel rest st
          else
            let r := parseArgs (rest.length + 1) rest
            let st1 := if r.1 ≠ [] ∨ c = 'Z' ∨ c = 'z' then processCommand st c r.1 else st
            parseLoop fuel r.2 st1

/-- SVGPath.parse(d) from the initial state (d.trim() is the whitespace
strip at both ends). -/
def svgPathParse (s : List Char) : PathState :=
  let t := (s.dropWhile isWSChar).reverse.dropWhile isWSChar |>.reverse
  parseLoop (t.length + 1) t PathState.initial

/-! ### Style resolution: src/svg-to-pdf.js (SVGParser.computeStyle) -/

/-- A markup element as computeStyle sees it: only getAttribute is used. -/
structure MarkupNode where
  attrs : List (List Char × List Char)
deriving DecidableEq, Repr

/-- element.getAttribute(name). -/
def getAttribute (e : MarkupNode) (name : List Char) : Option (List Char) :=
  lookupKey e.attrs name

/-- The seven recognized presentation attributes, in overlay order. -/
def presentationAttrs : List (List Char) :=
  ["fill".data, "stroke".data, "fill-opacity".data, "stroke-opacity".data,
   "opacity".data, "stroke-width".data, "fill-rule".data]

/-- The overlay loop of computeStyle: style = {...inherited}, then every
attribute present on the node (value not null) overrides. -/
def overlayAttrs (e : MarkupNode) (inherited : List (List Char × List Char)) :
    List (List Char × List Char) :=
  presentationAttrs.foldl
    (fun style attr =>
      match getAttribute e attr with
      | some v => setKey style attr v
      | none => style)
    inherited

/-- parseFloat(style[k] || 1): a missing or empty (falsy) entry gives the
number 1, otherwise the entry is parsed. -/
def styleOpacityVal (style : List (List Char × List Char)) (k : List Char) : JSNum :=
  match lookupKey style k with
  | some s => if s = [] then .fin 1 else jsParseFloat s
  | none => .fin 1

/-- computeStyle(element, inherited): copy the inherited style, overlay the
recognized attributes, then, when the opacity entry is present and truthy,
multiply it into both opacity channels (stored back as strings).  The
opacity entry itself is left in the returned style. -/
def computeStyle (e : MarkupNode) (inherited : List (List Char × List Char)) :
    List (List Char × List Char) :=
  let style := overlayAttrs e inherited
  match lookupKey style "opacity".data with
  | some s =>
      if s = [] then style
      else
        let op := jsParseFloat s
        let style1 := setKey style "fill-opacity".data
          (jsNumToChars (JSNum.jsMul (styleOpacityVal style "fill-opacity".data) op))
        setKey style1 "stroke-opacity".data
          (jsNumToChars (JSNum.jsMul (styleOpacityVal style1 "stroke-opacity".data) op))
  | none => style

/-! ### Color resolution: src/color-space.js and lib/index.js (applyColor) -/

/-- An RGB triple as produced by parseColor. -/
structure RGBv where
  r : JSNum
  g : JSNum
  b : JSNum
deriving DecidableEq, Repr

/-- A CMYK quadruple as produced by rgbToCMYK. -/
structure CMYKv where
  c : JSNum
  m : JSNum
  y : JSNum
  k : JSNum
deriving DecidableEq, Repr

/-- Math.max(0, Math.min(1, v)). -/
def clamp01 (v : JSNum) : JSNum := JSNum.jsMax (.fin 0) (JSNum.jsMin (.fin 1) v)

/-- ColorSpace.rgbToCMYK (src/color-space.js): clamp the inputs, compute
k = 1 - max(r, g, b), short-circuit pure black, otherwise divide and clamp
every component. -/
def rgbToCMYK (r g b : JSNum) : CMYKv :=
  let r1 := clamp01 r
  let g1 := clamp01 g
  let b1 := clamp01 b
  let k := JSNum.jsSub (.fin 1) (JSNum.jsMax r1 (JSNum.jsMax g1 b1))
  if JSNum.jsStrictEq k (.fin 1) then ⟨.fin 0, .fin 0, .fin 0, .fin 1⟩
  else
    let c := JSNum.jsDiv (JSNum.jsSub (JSNum.jsSub (.fin 1) r1) k) (JSNum.jsSub (.fin 1) k)
    let m := JSNum.jsDiv (JSNum.jsSub (JSNum.jsSub (.fin 1) g1) k) (JSNum.jsSub (.fin 1) k)
    let y := JSNum.jsDiv (JSNum.jsSub (JSNum.jsSub (.fin 1) b1) k) (JSNum.jsSub (.fin 1) k)
    ⟨clamp01 c, clamp01 m, clamp01 y, clamp01 k⟩

/-- Value of a hexadecimal digit. -/
def hexVal (c : Char) : Option ℕ :=
  if c.isDigit then some (c.toNat - 48)
  else if 'a' ≤ c ∧ c ≤ 'f' then some (c.toNat - 87)
  else if 'A' ≤ c ∧ c ≤ 'F' then some (c.toNat - 55)
  else none

/-- JavaScript parseInt(s, 16): the value of the maximal hexadecimal-digit
prefix, NaN when there is none (sign and 0x handling are never exercised by
the two-character slices the color parser passes in). -/
def parseIntHex (s : List Char) : JSNum :=
  let ds := s.takeWhile (fun c => (hexVal c).isSome)
  if ds = [] then .nan
  else .fin ((ds.foldl (fun acc c =>
    16 * acc + (match hexVal c with | some v => v | none => 0)) 0 : ℕ) : ℚ)

/-- Match the regex rgb\((\d+),\s*(\d+),\s*(\d+)\) at the start of
the list (greedy digit groups, optional whitespace only after each comma). -/
def matchRgbAt (s : List Char) : Option (ℕ × ℕ × ℕ) :=
  match s with
  | 'r' :: 'g' :: 'b' :: '(' :: rest =>
      let d1 := rest.takeWhile Char.isDigit
      let r1 := rest.dropWhile Char.isDigit
      if d1 = [] then none else
      match r1 with
      | ',' :: r2 =>
          let r3 := r2.dropWhile isWSChar
          let d2 := r3.takeWhile Char.isDigit
          let r4 := r3.dropWhile Char.isDigit
          if d2 = [] then none else
          match r4 with
          | ',' :: r5 =>
              let r6 := r5.dropWhile isWSChar
              let d3 := r6.takeWhile Char.isDigit
              let r7 := r6.dropWhile Char.isDigit
              if d3 = [] then none else
              match r7 with
              | ')' :: _ => some (digitsVal d1, digitsVal d2, digitsVal d3)
              | _ => none
          | _ => none
      | _ => none
  | _ => none

/-- Unanchored regex search: first position where the rgb pattern matches
(String.prototype.match scans left to right). -/
def searchRgb : List Char → Option (ℕ × ℕ × ℕ)
  | [] => none
  | c :: rest =>
      match matchRgbAt (c :: rest) with
      | some t => some t
      | none => searchRgb rest

/-- The named-color table of the lib SVGParser.parseColor (twelve entries,
looked up after lowercasing). -/
def namedColorsLib : List (List Char × (ℚ × ℚ × ℚ)) :=
  [("red".data, (1, 0, 0)), ("green".data, (0, 1, 0)), ("blue".data, (0, 0, 1)),
   ("black".data, (0, 0, 0)), ("white".data, (1, 1, 1)), ("yellow".data, (1, 1, 0)),
   ("cyan".data, (0, 1, 1)), ("magenta".data, (1, 0, 1)),
   ("gray".data, (1/2, 1/2, 1/2)), ("grey".data, (1/2, 1/2, 1/2)),
   ("orange".data, (1, 647/1000, 0)), ("purple".data, (1/2, 0, 1/2))]

/-- SVGParser.parseColor (lib/index.js): hex, rgb(...), named colors, else
black. -/
def parseColorLib (s : List Char) : RGBv :=
  match s with
  | '#' :: hex =>
      ⟨JSNum.jsDiv (parseIntHex (hex.take 2)) (.fin 255),
       JSNum.jsDiv (parseIntHex ((hex.drop 2).take 2)) (.fin 255),
       JSNum.jsDiv (parseIntHex ((hex.drop 4).take 2)) (.fin 255)⟩
  | _ =>
      match searchRgb s with
      | some (a, b, c) =>
          ⟨JSNum.jsDiv (.fin a) (.fin 255), JSNum.jsDiv (.fin b) (.fin 255),
           JSNum.jsDiv (.fin c) (.fin 255)⟩
      | none =>
          match lookupKey namedColorsLib (toLowerChars s) with
          | some (r, g, b) => ⟨.fin r, .fin g, .fin b⟩
          | none => ⟨.fin 0, .fin 0, .fin 0⟩

/-- The named-color table of PDFDocument._parseColor (eight entries, exact
case). -/
def namedColorsDoc : List (List Char × (ℚ × ℚ × ℚ)) :=
  [("red".data, (1, 0, 0)), ("green".data, (0, 1, 0)), ("blue".data, (0, 0, 1)),
   ("black".data, (0, 0, 0)), ("white".data, (1, 1, 1)), ("yellow".data, (1, 1, 0)),
   ("cyan".data, (0, 1, 1)), ("magenta".data, (1, 0, 1))]

/-- PDFDocument._parseColor: hex, rgb(...), eight named colors, else black. -/
def docParseColor (s : List Char) : Color :=
  match s with
  | '#' :: hex =>
      .rgb (JSNum.jsDiv (parseIntHex (hex.take 2)) (.fin 255))
        (JSNum.jsDiv (parseIntHex ((hex.drop 2).take 2)) (.fin 255))
        (JSNum.jsDiv (parseIntHex ((hex.drop 4).take 2)) (.fin 255))
  | _ =>
      match searchRgb s with
      | some (a, b, c) =>
          .rgb (JSNum.jsDiv (.fin a) (.fin 255)) (JSNum.jsDiv (.fin b) (.fin 255))
            (JSNum.jsDiv (.fin c) (.fin 255))
      | none =>
          match lookupKey namedColorsDoc s with
          | some (r, g, b) => .rgb (.fin r) (.fin g) (.fin b)
          | none => .rgb (.fin 0) (.fin 0) (.fin 0)

/-- fillColor with a string argument. -/
def PDFDocument.fillColorStr (d : PDFDocument) (s : List Char) : PDFDocument :=
  { d with currentColor := docParseColor s }

/-- strokeColor with a string argument. -/
def PDFDocument.strokeColorStr (d : PDFDocument) (s : List Char) : PDFDocument :=
  { d with currentStrokeColor := docParseColor s }

/-- One spot-color map entry of the SVGtoPDF options ({name, tint?}). -/
structure SpotMapEntry where
  name : List Char
  tint : Option JSNum

/-- The SVGtoPDF options consulted by applyColor.  The color callback may
return a replacement token; its structured-object results are outside this
model (the claims in scope are about the callback-free pipeline). -/
structure SvgOptions where
  colorCallback : Option (List Char → Option (List Char))
  spotColorMap : List (List Char × SpotMapEntry)
  useCMYK : Bool

/-- spotInfo.tint || 1 (the number 0 and NaN are falsy). -/
def tintOr1 : Option JSNum → JSNum
  | some t => if t = .fin 0 ∨ t = .nan then .fin 1 else t
  | none => .fin 1

/-- The five white tokens special-cased by the CMYK branch (compared after
lowercasing). -/
def isWhiteToken (s : List Char) : Prop :=
  s = "white".data ∨ s = "#ffffff".data ∨ s = "#fff".data ∨
    s = "rgb(255,255,255)".data ∨ s = "rgb(255, 255, 255)".data

instance (s : List Char) : Decidable (isWhiteToken s) := by
  unfold isWhiteToken
  infer_instance

/-- SVGParser.applyColor (lib/index.js): remap callback, spot-color map,
CMYK conversion with the pure-white special case, else RGB pass-through. -/
def applyColor (opts : SvgOptions) (d : PDFDocument) (color : List Char)
    (isFill : Bool) : PDFDocument :=
  let color1 :=
    match opts.colorCallback with
    | some cb =>
        match cb color with
        | some res => if res = [] then color else res
        | none => color
    | none => color
  match lookupKey opts.spotColorMap color1 with
  | some spotInfo =>
      if isFill then d.fillSpotColor spotInfo.name (tintOr1 spotInfo.tint)
      else d.strokeSpotColor spotInfo.name (tintOr1 spotInfo.tint)
  | none =>
      if opts.useCMYK then
        if isWhiteToken (toLowerChars color1) then
          if isFill then d.fillColorCMYK (.fin 0) (.fin 0) (.fin 0) (.fin 0)
          else d.strokeColorCMYK (.fin 0) (.fin 0) (.fin 0) (.fin 0)
        else
          let rgb := parseColorLib color1
          let cmyk := rgbToCMYK rgb.r rgb.g rgb.b
          if isFill then
            d.fillColorCMYK (JSNum.jsMul cmyk.c (.fin 100)) (JSNum.jsMul cmyk.m (.fin 100))
              (JSNum.jsMul cmyk.y (.fin 100)) (JSNum.jsMul cmyk.k (.fin 100))
          else
            d.strokeColorCMYK (JSNum.jsMul cmyk.c (.fin 100)) (JSNum.jsMul cmyk.m (.fin 100))
              (JSNum.jsMul cmyk.y (.fin 100)) (JSNum.jsMul cmyk.k (.fin 100))
      else
        if isFill then d.fillColorStr color1 else d.strokeColorStr color1

/-! ### Drawing-call sequences (for the content-stream safety claim) -/

/-- One call of the drawing api with arbitrary numeric arguments. -/
inductive DrawOp where
  | opMoveTo (x y : JSNum)
  | opLineTo (x y : JSNum)
  | opBezierCurveTo (cp1x cp1y cp2x cp2y x y : JSNum)
  | opQuadraticCurveTo (cpx cpy x y : JSNum)
  | opClosePath
  | opRect (x y w h : JSNum)
  | opCircle (cx cy r : JSNum)
  | opEllipse (cx cy rx ry : JSNum)
  | opTransform (a b c d e f : JSNum)
  | opTranslate (x y : JSNum)
  | opScale (sx sy : JSNum)
  | opSave
  | opRestore
  | opLineWidth (w : JSNum)
  | opFillColorRGB (r g b : JSNum)
  | opStrokeColorRGB (r g b : JSNum)
  | opFillColorCMYK (c m y k : JSNum)
  | opStrokeColorCMYK (c m y k : JSNum)
  | opFillColorLab (L a b : JSNum)
  | opStrokeColorLab (L a b : JSNum)
  | opDefineSpotColor (name : List Char) (c m y k : JSNum)
  | opDefineLabSpotColor (name : List Char) (L a b : JSNum)
  | opFillSpotColor (name : List Char) (tint : JSNum)
  | opStrokeSpotColor (name : List Char) (tint : JSNum)
  | opFill (evenodd : Bool)
  | opStroke
  | opFillAndStroke (evenodd : Bool)

open DrawOp in
/-- Apply one drawing call to the document. -/
def applyOp (d : PDFDocument) : DrawOp → PDFDocument
  | opMoveTo x y => d.moveTo x y
  | opLineTo x y => d.lineTo x y
  | opBezierCurveTo a b c e g h => d.bezierCurveTo a b c e g h
  | opQuadraticCurveTo a b x y => d.quadraticCurveTo a b x y
  | opClosePath => d.closePath
  | opRect x y w h => d.rect x y w h
  | opCircle cx cy r => d.circle cx cy r
  | opEllipse cx cy rx ry => d.ellipse cx cy rx ry
  | opTransform a b c e g h => d.transform a b c e g h
  | opTranslate x y => d.translate x y
  | opScale sx sy => d.scale sx sy
  | opSave => d.save
  | opRestore => d.restore
  | opLineWidth w => d.lineWidth w
  | opFillColorRGB r g b => d.fillColorRGB r g b
  | opStrokeColorRGB r g b => d.strokeColorRGB r g b
  | opFillColorCMYK c m y k => d.fillColorCMYK c m y k
  | opStrokeColorCMYK c m y k => d.strokeColorCMYK c m y k
  | opFillColorLab L a b => d.fillColorLab L a b
  | opStrokeColorLab L a b => d.strokeColorLab L a b
  | opDefineSpotColor n c m y k => d.defineSpotColor n c m y k
  | opDefineLabSpotColor n L a b => d.defineLabSpotColor n L a b
  | opFillSpotColor n t => d.fillSpotColor n t
  | opStrokeSpotColor n t => d.strokeSpotColor n t
  | opFill ev => d.fill ev
  | opStroke => d.stroke
  | opFillAndStroke ev => d.fillAndStroke ev

/-- Run a sequence of drawing calls on a document. -/
def runOps (d : PDFDocument) (ops : List DrawOp) : PDFDocument :=
  ops.foldl applyOp d

/-! ### Control-point selectors of the smooth-curve commands -/

/-- The x coordinate smoothBezierCurveTo uses for the first control point:
the reflection of the last control point about the current point after a
C or S command, else the current point. -/
def smoothCubicControlX (st : PathState) : JSNum :=
  if st.lastCommand = ['C'] ∨ st.lastCommand = ['S'] then
    JSNum.jsSub (JSNum.jsMul (.fin 2) st.currentX) st.lastControlX
  else st.currentX

/-- The y counterpart of smoothCubicControlX. -/
def smoothCubicControlY (st : PathState) : JSNum :=
  if st.lastCommand = ['C'] ∨ st.lastCommand = ['S'] then
    JSNum.jsSub (JSNum.jsMul (.fin 2) st.currentY) st.lastControlY
  else st.currentY

/-- The x coordinate smoothQuadraticCurveTo uses for the quadratic control
point: the reflection after a Q or T command, else the current point. -/
def smoothQuadControlX (st : PathState) : JSNum :=
  if st.lastCommand = ['Q'] ∨ st.lastCommand = ['T'] then
    JSNum.jsSub (JSNum.jsMul (.fin 2) st.currentX) st.lastControlX
  else st.currentX

/-- The y counterpart of smoothQuadControlX. -/
def smoothQuadControlY (st : PathState) : JSNum :=
  if st.lastCommand = ['Q'] ∨ st.lastCommand = ['T'] then
    JSNum.jsSub (JSNum.jsMul (.fin 2) st.currentY) st.lastControlY
  else st.currentY

/-- The cubic command produced by elevating a quadratic with control point
(cpx, cpy) ending at (x, y), from the current point of st (the 2/3
interpolation of quadraticCurveTo). -/
def elevatedQuadratic (st : PathState) (cpx cpy x y : JSNum) : PathCmd :=
  .curve
    (JSNum.jsAdd st.currentX (JSNum.jsMul (.fin (2/3)) (JSNum.jsSub cpx st.currentX)))
    (JSNum.jsAdd st.currentY (JSNum.jsMul (.fin (2/3)) (JSNum.jsSub cpy st.currentY)))
    (JSNum.jsAdd x (JSNum.jsMul (.fin (2/3)) (JSNum.jsSub cpx x)))
    (JSNum.jsAdd y (JSNum.jsMul (.fin (2/3)) (JSNum.jsSub cpy y)))
    x y

/-- The color the given paint role reads at paint time. -/
def activeColor (d : PDFDocument) (isFill : Bool) : Color :=
  if isFill then d.currentColor else d.currentStrokeColor

/-! ### Invariant for the content-stream safety claim -/

/-- A color is emission-safe when any resource name it carries is made of
characters that can never assemble a NaN or Infinity token. -/
def colorGood : Color → Prop
  | .spot _ _ sc => ∀ c ∈ sc.resourceName, goodChar c
  | _ => True

/-- Invariant preserved by every drawing call starting from a fresh
document: all content-stream characters are safe, the opacities are still
at their default 1 (no opacity setter is in the drawing-call type), and all
registered resource names are safe. -/
structure DocGood (d : PDFDocument) : Prop where
  stream : ∀ s ∈ d.contentStream, ∀ c ∈ s, goodChar c
  opFill : d.currentOpacityFill = .fin 1
  opStroke : d.currentOpacityStroke = .fin 1
  spots : ∀ p ∈ d.spotColors, ∀ c ∈ (SpotColorRec.resourceName p.2), goodChar c
  css : ∀ p ∈ d.resColorSpace, ∀ c ∈ (Prod.fst p), goodChar c
  colorFill : colorGood d.currentColor
  colorStroke : colorGood d.currentStrokeColor

/-! ## Supporting lemmas -/

theorem invDigit_digitChar {d : ℕ} (h : d < 10) : invDigit (digitChar d) = d := by
  interval_cases d <;> rfl

theorem charsToNat_append_digit (cs : List Char) (c : Char) :
    charsToNat (cs ++ [c]) = 10 * charsToNat cs + invDigit c := by
  simp [charsToNat, List.foldl_append]

theorem charsToNat_natToChars (n : ℕ) : charsToNat (natToChars n) = n := by
  induction n using Nat.strong_induction_on with
  | _ n ih =>
    rw [natToChars]
    by_cases h : n < 10
    · simp [h, charsToNat, invDigit_digitChar h]
    · have hrec := ih (n / 10) (Nat.div_lt_self (by omega) (by norm_num))
      simp only [h, dite_false]
      rw [charsToNat_append_digit, hrec, invDigit_digitChar (Nat.mod_lt _ (by norm_num))]
      omega

theorem natToChars_inj {a b : ℕ} (h : natToChars a = natToChars b) : a = b := by
  have := congrArg charsToNat h
  rwa [charsToNat_natToChars, charsToNat_natToChars] at this

theorem goodChar_digitChar (d : ℕ) : goodChar (digitChar d) := by
  unfold digitChar
  split <;> decide

theorem goodChar_natToChars {c : Char} {n : ℕ} (h : c ∈ natToChars n) : goodChar c := by
  induction n using Nat.strong_induction_on with
  | _ n ih =>
    rw [natToChars] at h
    by_cases h10 : n < 10
    · simp only [h10, dite_true, List.mem_singleton] at h
      exact h ▸ goodChar_digitChar n
    · simp only [h10, dite_false, List.mem_append, List.mem_singleton] at h
      rcases h with h | h
      · exact ih (n / 10) (Nat.div_lt_self (by omega) (by norm_num)) h
      · exact h ▸ goodChar_digitChar (n % 10)

theorem goodChar_padDigits {c : Char} {k r : ℕ} (h : c ∈ padDigits k r) : goodChar c := by
  simp only [padDigits, List.mem_append, List.mem_replicate] at h
  rcases h with h | h
  · exact h.2 ▸ (by decide)
  · exact goodChar_natToChars h

theorem goodChar_ratSign {c : Char} {q : ℚ} (h : c ∈ ratSign q) : goodChar c := by
  unfold ratSign at h
  split at h
  · exact (List.mem_singleton.1 h) ▸ (by decide)
  · simp at h

theorem goodChar_ratToChars {c : Char} {q : ℚ} (h : c ∈ ratToChars q) : goodChar c := by
  unfold ratToChars at h
  split at h
  · split at h <;> simp only [List.mem_append, List.mem_cons] at h
    · rcases h with h | h
      · exact goodChar_ratSign h
      · exact goodChar_natToChars h
    · rcases h with (h | h) | h | h
      · exact goodChar_ratSign h
      · exact goodChar_natToChars h
      · exact h ▸ (by decide)
      · exact goodChar_padDigits h
  · simp only [List.mem_append, List.mem_cons] at h
    rcases h with (h | h) | h | h
    · exact goodChar_ratSign h
    · exact goodChar_natToChars h
    · exact h ▸ (by decide)
    · exact goodChar_natToChars h

theorem goodChar_formatNumber {c : Char} {v : JSNum} (h : c ∈ formatNumber v) : goodChar c := by
  cases v <;> simp only [formatNumber] at h
  · exact goodChar_ratToChars h
  all_goals exact (List.mem_singleton.1 h) ▸ (by decide)

theorem lookupKey_setKey_self {α : Type} (l : List (List Char × α)) (k : List Char) (v : α) :
    lookupKey (setKey l k v) k = some v := by
  induction l with
  | nil => simp [setKey, lookupKey]
  | cons p t ih =>
    by_cases h : p.1 = k
    · simp [setKey, lookupKey, h]
    · simp [setKey, lookupKey, h, ih]

theorem lookupKey_setKey_ne {α : Type} (l : List (List Char × α)) {k k' : List Char} (v : α)
    (h : k' ≠ k) : lookupKey (setKey l k v) k' = lookupKey l k' := by
  induction l with
  | nil => simp [setKey, lookupKey, Ne.symm h]
  | cons p t ih =>
    by_cases hp : p.1 = k
    · have hp' : ¬ p.1 = k' := by rw [hp]; exact fun hh => h hh.symm
      simp [setKey, lookupKey, hp, hp', Ne.symm h]
    · by_cases hq : p.1 = k'
      · simp [setKey, lookupKey, hp, hq, h]
      · simp [setKey, lookupKey, hp, hq, ih]

theorem length_setKey_of_not_mem {α : Type} (l : List (List Char × α)) {k : List Char} (v : α)
    (h : lookupKey l k = none) : (setKey l k v).length = l.length + 1 := by
  induction l with
  | nil => simp [setKey]
  | cons p t ih =>
    by_cases hp : p.1 = k
    · simp [lookupKey, hp] at h
    · simp only [lookupKey, hp, ite_false] at h
      simp [setKey, hp, ih h]

theorem countKey_eq_zero_of_lookup_none {α : Type} (l : List (List Char × α)) {k : List Char}
    (h : lookupKey l k = none) : countKey l k = 0 := by
  induction l with
  | nil => simp [countKey]
  | cons p t ih =>
    by_cases hp : p.1 = k
    · simp [lookupKey, hp] at h
    · simp only [lookupKey, hp, ite_false] at h
      simpa [countKey, hp] using ih h

theorem countKey_append_self {α : Type} (l : List (List Char × α)) (k : List Char) (v : α) :
    countKey (l ++ [(k, v)]) k = countKey l k + 1 := by
  induction l with
  | nil => simp [countKey]
  | cons p t ih =>
    have hstep : countKey ((p :: t) ++ [(k, v)]) k
        = (if p.1 = k then 1 else 0) + countKey (t ++ [(k, v)]) k := rfl
    rw [hstep, ih]
    simp only [countKey]
    omega

/-! ## Claim theorems -/

/-- C6: parsing the path string "M0,0 L10,0 L10,10 Z" produces exactly the
command list [MoveTo(0,0), LineTo(10,0), LineTo(10,10), ClosePath], in that
order and with no other commands. -/
theorem pathParse_scenarioB :
    (svgPathParse "M0,0 L10,0 L10,10 Z".data).commands =
      [PathCmd.move (.fin 0) (.fin 0), PathCmd.line (.fin 10) (.fin 0),
       PathCmd.line (.fin 10) (.fin 10), PathCmd.close] := by
  with_unfolding_all rfl

/-- C7: for every state, the smooth cubic command S appends a cubic whose
first control point is the reflection of the previous control point about
the current point exactly when the previous command was C or S (and the
current point otherwise), and the smooth quadratic command T chooses its
quadratic control point (recorded as the new last control point and degree
elevated into the appended cubic) as the reflection exactly when the
previous command was Q or T (and the current point otherwise). -/
theorem smoothCurve_reflection (st : PathState) (cp2x cp2y x y tx ty : JSNum) :
    (st.psmoothBezierCurveTo cp2x cp2y x y).commands =
      st.commands ++
        [PathCmd.curve (smoothCubicControlX st) (smoothCubicControlY st) cp2x cp2y x y] ∧
    (st.psmoothQuadraticCurveTo tx ty).lastControlX = smoothQuadControlX st ∧
    (st.psmoothQuadraticCurveTo tx ty).lastControlY = smoothQuadControlY st ∧
    (st.psmoothQuadraticCurveTo tx ty).commands =
      st.commands ++ [elevatedQuadratic st (smoothQuadControlX st) (smoothQuadControlY st) tx ty] :=
  ⟨rfl, rfl, rfl, rfl⟩

/-- C8: referencing an unregistered spot-color name at paint time is a
no-op: the document (in particular the current fill and stroke color) is
unchanged, so the next paint operation emits the previously active color. -/
theorem unknownSpot_noop (d : PDFDocument) (name : List Char) (tint : JSNum) (ev : Bool)
    (h : lookupKey d.spotColors name = none) :
    d.fillSpotColor name tint = d ∧
    d.strokeSpotColor name tint = d ∧
    (d.fillSpotColor name tint).currentColor = d.currentColor ∧
    (d.strokeSpotColor name tint).currentStrokeColor = d.currentStrokeColor ∧
    ((d.fillSpotColor name tint).fill ev).contentStream = (d.fill ev).contentStream ∧
    ((d.strokeSpotColor name tint).stroke).contentStream = (d.stroke).contentStream := by
  have h1 : d.fillSpotColor name tint = d := by
    unfold PDFDocument.fillSpotColor
    rw [h]
  have h2 : d.strokeSpotColor name tint = d := by
    unfold PDFDocument.strokeSpotColor
    rw [h]
  exact ⟨h1, h2, by rw [h1], by rw [h2], by rw [h1], by rw [h2]⟩

/-- C8 witness: a fresh document with the unregistered name "X". -/
theorem unknownSpot_noop_witness :
    lookupKey PDFDocument.newDoc.spotColors "X".data = none ∧
    PDFDocument.newDoc.fillSpotColor "X".data (.fin 1) = PDFDocument.newDoc :=
  ⟨rfl, (unknownSpot_noop PDFDocument.newDoc "X".data (.fin 1) false rfl).1⟩

theorem PDFDocument.csName_inj {a b : ℕ} (h : PDFDocument.csName a = PDFDocument.csName b) : a = b := by
  unfold PDFDocument.csName at h
  exact natToChars_inj (List.append_cancel_left h)

/-- C2 counterexample: defining the spot color "X" twice on a fresh document
and then filling with it emits the second registration's resource name CS2,
while the first registration produced CS1; the names differ, so the second
call's first color-setting emission does not reuse the first name. -/
theorem defineSpotColor_twice_counterexample :
    (lookupKey (PDFDocument.newDoc.defineSpotColor "X".data (.fin 10) (.fin 20) (.fin 30)
        (.fin 40)).spotColors "X".data).map SpotColorRec.resourceName = some "CS1".data ∧
    ((((PDFDocument.newDoc.defineSpotColor "X".data (.fin 10) (.fin 20) (.fin 30)
        (.fin 40)).defineSpotColor "X".data (.fin 10) (.fin 20) (.fin 30)
        (.fin 40)).fillSpotColor "X".data (.fin 1)).fill false).contentStream
      = ["/CS2 cs".data, "1 scn".data, "f".data] ∧
    "CS2".data ≠ "CS1".data := by
  refine ⟨by with_unfolding_all rfl, by with_unfolding_all rfl, by decide⟩

/-- C2 amended: registering a spot color under an already-registered name is
not idempotent: the second call allocates a fresh resource name indexed by
the grown registry (CS(size + 2) instead of the first call's CS(size + 1)),
rebinds the spot name to it, and the first color-setting emission after the
second call uses that new, different name; defineLabSpotColor behaves the
same way. -/
theorem defineSpotColor_second_fresh (d : PDFDocument) (name : List Char)
    (c m y k c' m' y' k' tint : JSNum)
    (hfresh : lookupKey d.resColorSpace (PDFDocument.csName (d.resColorSpace.length + 1)) = none) :
    (lookupKey (d.defineSpotColor name c m y k).spotColors name).map
        SpotColorRec.resourceName = some (PDFDocument.csName (d.resColorSpace.length + 1)) ∧
    (lookupKey ((d.defineSpotColor name c m y k).defineSpotColor name c' m' y' k').spotColors
        name).map SpotColorRec.resourceName = some (PDFDocument.csName (d.resColorSpace.length + 2)) ∧
    PDFDocument.csName (d.resColorSpace.length + 2) ≠ PDFDocument.csName (d.resColorSpace.length + 1) ∧
    (((d.defineSpotColor name c m y k).defineSpotColor name c' m' y' k').fillSpotColor
        name tint).currentColor.spotResourceName = some (PDFDocument.csName (d.resColorSpace.length + 2)) ∧
    (lookupKey (d.defineLabSpotColor name c m y).spotColors name).map
        SpotColorRec.resourceName = some (PDFDocument.csName (d.resColorSpace.length + 1)) ∧
    (lookupKey ((d.defineLabSpotColor name c m y).defineLabSpotColor name c' m' y').spotColors
        name).map SpotColorRec.resourceName = some (PDFDocument.csName (d.resColorSpace.length + 2)) := by
  have hlen : ((d.defineSpotColor name c m y k).resColorSpace).length
      = d.resColorSpace.length + 1 := by
    simpa [PDFDocument.defineSpotColor] using
      length_setKey_of_not_mem d.resColorSpace _ hfresh
  have hlenLab : ((d.defineLabSpotColor name c m y).resColorSpace).length
      = d.resColorSpace.length + 1 := by
    simpa [PDFDocument.defineLabSpotColor] using
      length_setKey_of_not_mem d.resColorSpace _ hfresh
  have hne : PDFDocument.csName (d.resColorSpace.length + 2) ≠ PDFDocument.csName (d.resColorSpace.length + 1) := by
    intro h
    have := PDFDocument.csName_inj h
    omega
  refine ⟨?_, ?_, hne, ?_, ?_, ?_⟩
  · simp [PDFDocument.defineSpotColor, lookupKey_setKey_self]
  · simp [PDFDocument.defineSpotColor, lookupKey_setKey_self,
      length_setKey_of_not_mem d.resColorSpace _ hfresh]
  · simp only [PDFDocument.fillSpotColor]
    rw [show lookupKey ((d.defineSpotColor name c m y k).defineSpotColor
        name c' m' y' k').spotColors name = some ⟨name,
          SpotFallback.cmyk (JSNum.jsDiv c' (.fin 100)) (JSNum.jsDiv m' (.fin 100))
            (JSNum.jsDiv y' (.fin 100)) (JSNum.jsDiv k' (.fin 100)),
          PDFDocument.csName (((d.defineSpotColor name c m y k).resColorSpace).length + 1)⟩ from by
      simp [PDFDocument.defineSpotColor, lookupKey_setKey_self]]
    simp [Color.spotResourceName, hlen]
  · simp [PDFDocument.defineLabSpotColor, lookupKey_setKey_self]
  · simp [PDFDocument.defineLabSpotColor, lookupKey_setKey_self,
      length_setKey_of_not_mem d.resColorSpace _ hfresh]

/-- C2 witness for the amended statement: a fresh document and the name "X"
(the freshness hypothesis holds on the empty registry). -/
theorem defineSpotColor_second_fresh_witness :
    lookupKey PDFDocument.newDoc.resColorSpace
        (PDFDocument.csName (PDFDocument.newDoc.resColorSpace.length + 1)) = none ∧
    (lookupKey ((PDFDocument.newDoc.defineSpotColor "X".data (.fin 0) (.fin 0) (.fin 0)
        (.fin 0)).defineSpotColor "X".data (.fin 0) (.fin 0) (.fin 0) (.fin 0)).spotColors
        "X".data).map SpotColorRec.resourceName
      = some (PDFDocument.csName (PDFDocument.newDoc.resColorSpace.length + 2)) :=
  ⟨rfl, (defineSpotColor_second_fresh PDFDocument.newDoc "X".data (.fin 0) (.fin 0) (.fin 0)
    (.fin 0) (.fin 0) (.fin 0) (.fin 0) (.fin 0) (.fin 1) rfl).2.1⟩

theorem setKey_eq_append_of_lookup_none {α : Type} (l : List (List Char × α)) {k : List Char}
    (v : α) (h : lookupKey l k = none) : setKey l k v = l ++ [(k, v)] := by
  induction l with
  | nil => simp [setKey]
  | cons p t ih =>
    by_cases hp : p.1 = k
    · simp [lookupKey, hp] at h
    · simp only [lookupKey, hp, ite_false] at h
      simp [setKey, hp, ih h]

theorem lookupKey_append_last {α : Type} (l : List (List Char × α)) {k : List Char} (v : α)
    (h : lookupKey l k = none) : lookupKey (l ++ [(k, v)]) k = some v := by
  rw [← setKey_eq_append_of_lookup_none l v h]
  exact lookupKey_setKey_self l k v

theorem setColor_preserves (d : PDFDocument) (c : Color) (b : Bool) :
    (d.setColor c b).resExtGState = d.resExtGState ∧
    (d.setColor c b).currentOpacityFill = d.currentOpacityFill ∧
    (d.setColor c b).currentOpacityStroke = d.currentOpacityStroke ∧
    (d.setColor c b).currentColor = d.currentColor ∧
    (d.setColor c b).currentStrokeColor = d.currentStrokeColor ∧
    (d.setColor c b).currentLineWidth = d.currentLineWidth := by
  cases c with
  | lab L la lb =>
      cases hfind : d.resColorSpace.find? (fun p => p.2 = CSResource.labGeneric) <;>
        simp [PDFDocument.setColor, PDFDocument.ensureLabColorSpace, hfind, PDFDocument.push]
  | _ => simp [PDFDocument.setColor, PDFDocument.push]

theorem jsLt_fin_one {v : ℚ} (h : v < 1) : JSNum.jsLt (.fin v) (.fin 1) = true := by
  simp [JSNum.jsLt, h]

theorem setFillOpacity_registers (d : PDFDocument) (v : ℚ)
    (hv : d.currentOpacityFill = .fin v) (h1 : v < 1)
    (hl : lookupKey d.resExtGState ("fill_".data ++ jsNumToChars (.fin v)) = none) :
    d.setFillOpacity.contentStream = d.contentStream ++
      ['/' :: ("fill_".data ++ jsNumToChars (.fin v)) ++ " gs".data] ∧
    d.setFillOpacity.resExtGState = setKey d.resExtGState
      ("fill_".data ++ jsNumToChars (.fin v)) ⟨true, .fin v⟩ ∧
    d.setFillOpacity.currentOpacityFill = .fin v ∧
    d.setFillOpacity.currentColor = d.currentColor := by
  unfold PDFDocument.setFillOpacity
  rw [hv, jsLt_fin_one h1]
  simp only [if_true, PDFDocument.getOpacityGState, hl]
  exact ⟨rfl, rfl, hv, rfl⟩

theorem setFillOpacity_reuses (d : PDFDocument) (v : ℚ) (g : GStateRec)
    (hv : d.currentOpacityFill = .fin v) (h1 : v < 1)
    (hl : lookupKey d.resExtGState ("fill_".data ++ jsNumToChars (.fin v)) = some g) :
    d.setFillOpacity.contentStream = d.contentStream ++
      ['/' :: ("fill_".data ++ jsNumToChars (.fin v)) ++ " gs".data] ∧
    d.setFillOpacity.resExtGState = d.resExtGState := by
  unfold PDFDocument.setFillOpacity
  rw [hv, jsLt_fin_one h1]
  simp only [if_true, PDFDocument.getOpacityGState, hl]
  exact ⟨rfl, rfl⟩

/-- C9: two fill operations with the same fractional fill opacity v (with
0 ≤ v < 1 and key not yet present) register exactly one ExtGState entry
under the key fill_v: the first fill adds it, the second fill adds nothing
and pushes the same /fill_v gs line referencing the same resource name. -/
theorem opacity_gstate_dedup (d : PDFDocument) (v : ℚ) (h0 : 0 ≤ v) (h1 : v < 1)
    (hfresh : lookupKey d.resExtGState ("fill_".data ++ jsNumToChars (.fin v)) = none) :
    countKey (((d.fillOpacity (.fin v)).fill false).resExtGState)
        ("fill_".data ++ jsNumToChars (.fin v)) = 1 ∧
    (((d.fillOpacity (.fin v)).fill false).fill false).resExtGState
      = ((d.fillOpacity (.fin v)).fill false).resExtGState ∧
    ((d.fillOpacity (.fin v)).fill false).contentStream
      = ((d.fillOpacity (.fin v)).setColor (d.fillOpacity (.fin v)).currentColor
          true).contentStream ++
        ['/' :: ("fill_".data ++ jsNumToChars (.fin v)) ++ " gs".data, "f".data] ∧
    (((d.fillOpacity (.fin v)).fill false).fill false).contentStream
      = (((d.fillOpacity (.fin v)).fill false).setColor
          ((d.fillOpacity (.fin v)).fill false).currentColor true).contentStream ++
        ['/' :: ("fill_".data ++ jsNumToChars (.fin v)) ++ " gs".data, "f".data] := by
  set key := "fill_".data ++ jsNumToChars (.fin v) with hkey
  set d0 := d.fillOpacity (.fin v) with hd0
  set dc := d0.setColor d0.currentColor true with hdc
  have hpres := setColor_preserves d0 d0.currentColor true
  have hext : dc.resExtGState = d.resExtGState := hpres.1
  have hopc : dc.currentOpacityFill = .fin v := hpres.2.1
  have hl1 : lookupKey dc.resExtGState key = none := by rw [hext]; exact hfresh
  have happ := setFillOpacity_registers dc v hopc h1 hl1
  have he1 : d0.fill false = (dc.setFillOpacity).push "f".data := rfl
  have hstream1 : (d0.fill false).contentStream
      = dc.contentStream ++ ['/' :: key ++ " gs".data, "f".data] := by
    rw [he1]
    show (dc.setFillOpacity).contentStream ++ ["f".data] = _
    rw [happ.1]
    simp only [List.append_assoc, List.cons_append, List.nil_append]
    rfl
  have hext1 : (d0.fill false).resExtGState = d.resExtGState ++ [(key, ⟨true, .fin v⟩)] := by
    rw [he1]
    show (dc.setFillOpacity).resExtGState = _
    rw [happ.2.1, hext, setKey_eq_append_of_lookup_none d.resExtGState _ hfresh]
  have hcount : countKey ((d0.fill false)).resExtGState key = 1 := by
    rw [hext1, countKey_append_self, countKey_eq_zero_of_lookup_none d.resExtGState hfresh]
  have hop1 : (d0.fill false).currentOpacityFill = .fin v := by
    rw [he1]
    show (dc.setFillOpacity).currentOpacityFill = _
    exact happ.2.2.1
  set e1 := d0.fill false with he1d
  set ec := e1.setColor e1.currentColor true with hec
  have hpres2 := setColor_preserves e1 e1.currentColor true
  have hext2 : ec.resExtGState = e1.resExtGState := hpres2.1
  have hopc2 : ec.currentOpacityFill = .fin v := by rw [hec, hpres2.2.1, hop1]
  have hlook2 : lookupKey ec.resExtGState key = some ⟨true, .fin v⟩ := by
    rw [hext2, hext1]
    exact lookupKey_append_last d.resExtGState _ hfresh
  have hre := setFillOpacity_reuses ec v ⟨true, .fin v⟩ hopc2 h1 hlook2
  have he2 : e1.fill false = (ec.setFillOpacity).push "f".data := rfl
  have hstream2 : (e1.fill false).contentStream
      = ec.contentStream ++ ['/' :: key ++ " gs".data, "f".data] := by
    rw [he2]
    show (ec.setFillOpacity).contentStream ++ ["f".data] = _
    rw [hre.1]
    simp only [List.append_assoc, List.cons_append, List.nil_append]
    rfl
  have hext3 : (e1.fill false).resExtGState = e1.resExtGState := by
    rw [he2]
    show (ec.setFillOpacity).resExtGState = _
    rw [hre.2, hext2]
  exact ⟨hcount, hext3, hstream1, hstream2⟩

/-- C9 witness: a fresh document and opacity one half. -/
theorem opacity_gstate_dedup_witness :
    ((0 : ℚ) ≤ 1/2 ∧ (1/2 : ℚ) < 1 ∧
      lookupKey PDFDocument.newDoc.resExtGState
        ("fill_".data ++ jsNumToChars (.fin (1/2))) = none) ∧
    countKey (((PDFDocument.newDoc.fillOpacity (.fin (1/2))).fill false).resExtGState)
        ("fill_".data ++ jsNumToChars (.fin (1/2))) = 1 :=
  ⟨⟨by norm_num, by norm_num, rfl⟩,
    (opacity_gstate_dedup PDFDocument.newDoc (1/2) (by norm_num) (by norm_num) rfl).1⟩

theorem genericLabCount_pos_of_find {l : List (List Char × CSResource)} {p}
    (hf : l.find? (fun q => q.2 = CSResource.labGeneric) = some p) :
    1 ≤ genericLabCount l := by
  induction l with
  | nil => simp [List.find?] at hf
  | cons q t ih =>
    by_cases hq : q.2 = CSResource.labGeneric
    · simp [genericLabCount, hq]
    · rw [List.find?_cons_of_neg _ (by simpa using hq)] at hf
      have := ih hf
      simp [genericLabCount, hq]
      omega

theorem genericLabCount_zero_of_find_none {l : List (List Char × CSResource)}
    (hf : l.find? (fun q => q.2 = CSResource.labGeneric) = none) :
    genericLabCount l = 0 := by
  induction l with
  | nil => rfl
  | cons q t ih =>
    by_cases hq : q.2 = CSResource.labGeneric
    · rw [List.find?_cons_of_pos _ (by simpa using hq)] at hf
      exact absurd hf (by simp)
    · rw [List.find?_cons_of_neg _ (by simpa using hq)] at hf
      simp [genericLabCount, hq, ih hf]

theorem genericLabCount_setKey_one {l : List (List Char × CSResource)} (k : List Char)
    (h : ∀ p ∈ l, ¬ p.2 = CSResource.labGeneric) :
    genericLabCount (setKey l k CSResource.labGeneric) = 1 := by
  induction l with
  | nil => simp [setKey, genericLabCount]
  | cons q t ih =>
    by_cases hq : q.1 = k
    · have hrest : genericLabCount t = 0 := by
        have hnone : t.find? (fun q => q.2 = CSResource.labGeneric) = none := by
          rw [List.find?_eq_none]
          intro a ha
          simpa using h a (List.mem_cons_of_mem _ ha)
        exact genericLabCount_zero_of_find_none hnone
      simp [setKey, hq, genericLabCount, hrest]
    · have hqn : ¬ q.2 = CSResource.labGeneric := h q (List.mem_cons_self _ _)
      simp [setKey, hq, genericLabCount, hqn,
        ih (fun p hp => h p (List.mem_cons_of_mem _ hp))]

/-- C10: fillColorLab / strokeColorLab store the clamped Lab color, and the
color emitter for a Lab color selects the generic Lab color-space resource
(creating it only when no generic Lab entry exists yet, so it is created at
most once per document: the count becomes max 1 count) and then emits a
component-setting operator whose three numbers are the normalized values
L/100, (a+128)/255 and (b+128)/255 of the clamped color, not the raw
components. -/
theorem labDirect_emission (d d' : PDFDocument) (isFill : Bool) (L a b : JSNum) :
    (d.fillColorLab L a b).currentColor = .lab (clampL L) (clampAB a) (clampAB b) ∧
    (d.strokeColorLab L a b).currentStrokeColor = .lab (clampL L) (clampAB a) (clampAB b) ∧
    (d'.setColor (.lab (clampL L) (clampAB a) (clampAB b)) isFill).contentStream
      = d'.contentStream ++
        ['/' :: d'.ensureLabColorSpace.1 ++ (if isFill then " cs".data else " CS".data),
         formatNumber (JSNum.jsDiv (clampL L) (.fin 100)) ++ ' ' ::
           formatNumber (JSNum.jsDiv (JSNum.jsAdd (clampAB a) (.fin 128)) (.fin 255)) ++ ' ' ::
           formatNumber (JSNum.jsDiv (JSNum.jsAdd (clampAB b) (.fin 128)) (.fin 255)) ++
           (if isFill then " scn".data else " SCN".data)] ∧
    genericLabCount
        (d'.setColor (.lab (clampL L) (clampAB a) (clampAB b)) isFill).resColorSpace
      = max 1 (genericLabCount d'.resColorSpace) := by
  refine ⟨rfl, rfl, ?_, ?_⟩
  · cases hf : d'.resColorSpace.find? (fun p => p.2 = CSResource.labGeneric) with
    | some p =>
        simp only [PDFDocument.setColor, PDFDocument.ensureLabColorSpace, hf,
          PDFDocument.push, List.append_assoc, List.cons_append, List.nil_append]
    | none =>
        simp only [PDFDocument.setColor, PDFDocument.ensureLabColorSpace, hf,
          PDFDocument.push, List.append_assoc, List.cons_append, List.nil_append]
  · cases hf : d'.resColorSpace.find? (fun p => p.2 = CSResource.labGeneric) with
    | some p =>
        have h1 := genericLabCount_pos_of_find hf
        simp only [PDFDocument.setColor, PDFDocument.ensureLabColorSpace, hf,
          PDFDocument.push]
        omega
    | none =>
        have h0 := genericLabCount_zero_of_find_none hf
        have hall : ∀ p ∈ d'.resColorSpace, ¬ p.2 = CSResource.labGeneric := by
          intro p hp
          have := List.find?_eq_none.1 hf p hp
          simpa using this
        simp only [PDFDocument.setColor, PDFDocument.ensureLabColorSpace, hf,
          PDFDocument.push]
        rw [genericLabCount_setKey_one _ hall, h0]
        omega

theorem jsDiv_zero_100 : JSNum.jsDiv (.fin 0) (.fin 100) = .fin 0 := by
  simp [JSNum.jsDiv]

theorem jsMul_100_div_100 (x : JSNum) :
    JSNum.jsDiv (JSNum.jsMul x (.fin 100)) (.fin 100) = x := by
  cases x with
  | fin q =>
      simp only [JSNum.jsMul, JSNum.jsDiv]
      norm_num
  | nan => rfl
  | posInf => simp [JSNum.jsMul, JSNum.jsDiv]
  | negInf => simp [JSNum.jsMul, JSNum.jsDiv]

theorem jsMax_fin (a b : ℚ) : JSNum.jsMax (.fin a) (.fin b) = .fin (max a b) := rfl

theorem jsMin_fin (a b : ℚ) : JSNum.jsMin (.fin a) (.fin b) = .fin (min a b) := rfl

theorem jsSub_fin (a b : ℚ) : JSNum.jsSub (.fin a) (.fin b) = .fin (a - b) := rfl

theorem jsStrictEq_fin (a b : ℚ) :
    JSNum.jsStrictEq (.fin a) (.fin b) = decide (a = b) := rfl

theorem clamp01_fin (a : ℚ) : clamp01 (.fin a) = .fin (max 0 (min 1 a)) := rfl

theorem jsDiv_fin (a b : ℚ) (hb : b ≠ 0) :
    JSNum.jsDiv (.fin a) (.fin b) = .fin (a / b) := by
  simp [JSNum.jsDiv, hb]

/-- C5: in CMYK mode (no remap callback, token not in the spot map), a token
that lowercases to one of the five pure-white spellings resolves to the
exact CMYK zero vector; every other token is parsed as RGB and converted by
rgbToCMYK; and on finite inputs rgbToCMYK is exactly the claimed formula:
clamp the channels, k = 1 - max(r, g, b), the case k = 1 short-circuits to
(0, 0, 0, 1) with no division, and otherwise c, m, y = (1 - channel - k) /
(1 - k) with all four components clamped to [0, 1]. -/
theorem cmyk_white_and_formula (opts : SvgOptions) (d : PDFDocument) (tok : List Char)
    (isFill : Bool) (hcb : opts.colorCallback = none)
    (hspot : lookupKey opts.spotColorMap tok = none) (hcmyk : opts.useCMYK = true) :
    (isWhiteToken (toLowerChars tok) →
      activeColor (applyColor opts d tok isFill) isFill
        = Color.cmyk (.fin 0) (.fin 0) (.fin 0) (.fin 0)) ∧
    (¬ isWhiteToken (toLowerChars tok) →
      activeColor (applyColor opts d tok isFill) isFill
        = Color.cmyk (rgbToCMYK (parseColorLib tok).r (parseColorLib tok).g
            (parseColorLib tok).b).c
          (rgbToCMYK (parseColorLib tok).r (parseColorLib tok).g (parseColorLib tok).b).m
          (rgbToCMYK (parseColorLib tok).r (parseColorLib tok).g (parseColorLib tok).b).y
          (rgbToCMYK (parseColorLib tok).r (parseColorLib tok).g (parseColorLib tok).b).k) ∧
    (∀ r g b : ℚ,
      rgbToCMYK (.fin r) (.fin g) (.fin b) =
        (let r1 : ℚ := max 0 (min 1 r)
         let g1 : ℚ := max 0 (min 1 g)
         let b1 : ℚ := max 0 (min 1 b)
         let k : ℚ := 1 - max r1 (max g1 b1)
         if k = 1 then ⟨.fin 0, .fin 0, .fin 0, .fin 1⟩
         else
           ⟨.fin (max 0 (min 1 ((1 - r1 - k) / (1 - k)))),
            .fin (max 0 (min 1 ((1 - g1 - k) / (1 - k)))),
            .fin (max 0 (min 1 ((1 - b1 - k) / (1 - k)))),
            .fin (max 0 (min 1 k))⟩)) := by
  refine ⟨?_, ?_, ?_⟩
  · intro hw
    unfold applyColor
    simp only [hcb, hcmyk]
    rw [hspot]
    simp only [if_true]
    rw [if_pos hw]
    cases isFill <;>
      simp [activeColor, PDFDocument.fillColorCMYK, PDFDocument.strokeColorCMYK, jsDiv_zero_100]
  · intro hw
    unfold applyColor
    simp only [hcb, hcmyk]
    rw [hspot]
    simp only [if_true]
    rw [if_neg hw]
    cases isFill <;>
      simp [activeColor, PDFDocument.fillColorCMYK, PDFDocument.strokeColorCMYK,
        jsMul_100_div_100]
  · intro r g b
    unfold rgbToCMYK
    simp only [clamp01_fin, jsMax_fin, jsSub_fin, jsStrictEq_fin]
    by_cases hk :
        (1 : ℚ) - max (max 0 (min 1 r)) (max (max 0 (min 1 g)) (max 0 (min 1 b))) = 1
    · simp [hk]
    · have hden : (1 : ℚ) -
          ((1 : ℚ) - max (max 0 (min 1 r)) (max (max 0 (min 1 g)) (max 0 (min 1 b)))) ≠ 0 :=
        fun h => hk (by linarith)
      simp only [hk, decide_False, Bool.false_eq_true, if_false, jsSub_fin,
        jsDiv_fin _ _ hden, clamp01_fin, decide_eq_true_eq]

/-- C5 witness: the token "white" in CMYK mode on a fresh document resolves
to the CMYK zero vector. -/
theorem cmyk_white_and_formula_witness :
    (SvgOptions.mk none [] true).colorCallback = none ∧
    lookupKey (SvgOptions.mk none [] true).spotColorMap "white".data = none ∧
    (SvgOptions.mk none [] true).useCMYK = true ∧
    isWhiteToken (toLowerChars "white".data) ∧
    activeColor (applyColor (SvgOptions.mk none [] true) PDFDocument.newDoc "white".data true)
        true = Color.cmyk (.fin 0) (.fin 0) (.fin 0) (.fin 0) :=
  ⟨rfl, rfl, rfl, by decide,
    (cmyk_white_and_formula (SvgOptions.mk none [] true) PDFDocument.newDoc "white".data true
      rfl rfl rfl).1 (by decide)⟩

/-- C3 counterexample: a group with opacity 0.5 and an attribute-free child.
After the parent's style resolution the opacity entry is still in the style
(it is inherited as a separate field), and the child's resolution multiplies
it in again: the child's effective fill-opacity is 0.25, not the 0.5 a
single application of the ancestor factor would give. -/
theorem computeStyle_opacity_counterexample :
    lookupKey (computeStyle (MarkupNode.mk [])
        (computeStyle (MarkupNode.mk [("opacity".data, "0.5".data)]) []))
      "opacity".data = some "0.5".data ∧
    lookupKey (computeStyle (MarkupNode.mk [])
        (computeStyle (MarkupNode.mk [("opacity".data, "0.5".data)]) []))
      "fill-opacity".data = some "0.25".data ∧
    lookupKey (computeStyle (MarkupNode.mk [("opacity".data, "0.5".data)]) [])
      "fill-opacity".data = some "0.5".data ∧
    ("0.25".data : List Char) ≠ "0.5".data :=
  ⟨by with_unfolding_all rfl, by with_unfolding_all rfl, by with_unfolding_all rfl, by decide⟩

theorem lookup_overlayList_not_mem (e : MarkupNode) (attrs : List (List Char))
    (st : List (List Char × List Char)) (a : List Char) (ha : a ∉ attrs) :
    lookupKey (attrs.foldl (fun style attr =>
      match getAttribute e attr with
      | some v => setKey style attr v
      | none => style) st) a = lookupKey st a := by
  induction attrs generalizing st with
  | nil => rfl
  | cons b t ih =>
    simp only [List.foldl_cons]
    have hab : a ≠ b := fun h => ha (h ▸ List.mem_cons_self b t)
    rw [ih _ (fun h => ha (List.mem_cons_of_mem _ h))]
    cases hb : getAttribute e b with
    | none => simp [hb]
    | some v => simp [hb, lookupKey_setKey_ne _ _ hab]

theorem lookup_overlayList_mem (e : MarkupNode) (attrs : List (List Char))
    (st : List (List Char × List Char)) (a : List Char) (ha : a ∈ attrs)
    (hnd : attrs.Nodup) :
    lookupKey (attrs.foldl (fun style attr =>
      match getAttribute e attr with
      | some v => setKey style attr v
      | none => style) st) a =
      (match getAttribute e a with
       | some v => some v
       | none => lookupKey st a) := by
  induction attrs generalizing st with
  | nil => cases ha
  | cons b t ih =>
    simp only [List.foldl_cons]
    rcases List.mem_cons.1 ha with rfl | hmem
    · have hat : a ∉ t := (List.nodup_cons.1 hnd).1
      rw [lookup_overlayList_not_mem e t _ a hat]
      cases hb : getAttribute e a with
      | none => simp [hb]
      | some v => simp [hb, lookupKey_setKey_self]
    · have hab : a ≠ b := fun h => (List.nodup_cons.1 hnd).1 (h ▸ hmem)
      rw [ih _ hmem (List.nodup_cons.1 hnd).2]
      cases ha2 : getAttribute e a with
      | some v => rfl
      | none =>
          cases hb : getAttribute e b with
          | none => simp [hb]
          | some v => simp [hb, lookupKey_setKey_ne _ _ hab]

theorem styleOpacityVal_setKey_ne (st : List (List Char × List Char))
    {k k' : List Char} (v : List Char) (h : k' ≠ k) :
    styleOpacityVal (setKey st k v) k' = styleOpacityVal st k' := by
  unfold styleOpacityVal
  rw [lookupKey_setKey_ne _ _ h]

/-- C3 amended: computeStyle overlays the recognized presentation attributes
on the parent style, and a present nonempty opacity multiplies into both
fill-opacity and stroke-opacity (each read with default 1); however the
opacity entry remains in the computed style (it equals the overlaid value),
so it is inherited and a descendant multiplies every ancestor's opacity in
again, once per level of descent, rather than exactly once. -/
theorem computeStyle_opacity_behavior (e : MarkupNode)
    (inherited : List (List Char × List Char)) :
    (∀ a ∈ presentationAttrs,
      lookupKey (overlayAttrs e inherited) a =
        (match getAttribute e a with
         | some v => some v
         | none => lookupKey inherited a)) ∧
    lookupKey (computeStyle e inherited) "opacity".data
      = lookupKey (overlayAttrs e inherited) "opacity".data ∧
    (∀ s, lookupKey (overlayAttrs e inherited) "opacity".data = some s → s ≠ [] →
      lookupKey (computeStyle e inherited) "fill-opacity".data
        = some (jsNumToChars (JSNum.jsMul
            (styleOpacityVal (overlayAttrs e inherited) "fill-opacity".data)
            (jsParseFloat s))) ∧
      lookupKey (computeStyle e inherited) "stroke-opacity".data
        = some (jsNumToChars (JSNum.jsMul
            (styleOpacityVal (overlayAttrs e inherited) "stroke-opacity".data)
            (jsParseFloat s)))) := by
  refine ⟨?_, ?_, ?_⟩
  · intro a ha
    exact lookup_overlayList_mem e presentationAttrs inherited a ha (by decide)
  · rcases hl : lookupKey (overlayAttrs e inherited) "opacity".data with _ | s
    · simp [computeStyle, hl]
    · by_cases hs : s = []
      · simp [computeStyle, hl, hs]
      · simp only [computeStyle, hl, hs, if_false]
        rw [lookupKey_setKey_ne _ _
            (show ("opacity".data : List Char) ≠ "stroke-opacity".data by decide),
          lookupKey_setKey_ne _ _
            (show ("opacity".data : List Char) ≠ "fill-opacity".data by decide)]
        exact hl
  · intro s hs hne
    simp only [computeStyle, hs, hne, if_false]
    constructor
    · rw [lookupKey_setKey_ne _ _
          (show ("fill-opacity".data : List Char) ≠ "stroke-opacity".data by decide),
        lookupKey_setKey_self]
    · rw [lookupKey_setKey_self,
        styleOpacityVal_setKey_ne (overlayAttrs e inherited) _
          (show ("stroke-opacity".data : List Char) ≠ "fill-opacity".data by decide)]

/-- C3 witness for the amended statement: the opacity-0.5 element over an
empty inherited style. -/
theorem computeStyle_opacity_behavior_witness :
    lookupKey (overlayAttrs (MarkupNode.mk [("opacity".data, "0.5".data)]) [])
        "opacity".data = some "0.5".data ∧
    ("0.5".data : List Char) ≠ [] ∧
    lookupKey (computeStyle (MarkupNode.mk [("opacity".data, "0.5".data)]) [])
        "fill-opacity".data
      = some (jsNumToChars (JSNum.jsMul
          (styleOpacityVal (overlayAttrs (MarkupNode.mk [("opacity".data, "0.5".data)]) [])
            "fill-opacity".data)
          (jsParseFloat "0.5".data))) :=
  ⟨by with_unfolding_all rfl, by decide,
    ((computeStyle_opacity_behavior (MarkupNode.mk [("opacity".data, "0.5".data)]) []).2.2
      "0.5".data (by with_unfolding_all rfl) (by decide)).1⟩

theorem emitObjs_nil (i : ℕ) (pdf : List Char) : emitObjs i [] pdf = (pdf, []) := rfl

theorem emitObjs_cons_none (i : ℕ) (rest : List (Option (List Char))) (pdf : List Char) :
    emitObjs i (none :: rest) pdf =
      ((emitObjs (i + 1) rest pdf).1, none :: (emitObjs (i + 1) rest pdf).2) := rfl

theorem emitObjs_cons_some (i : ℕ) (body : List Char) (rest : List (Option (List Char)))
    (pdf : List Char) :
    emitObjs i (some body :: rest) pdf =
      ((emitObjs (i + 1) rest (pdf ++ objToken i ++ '\n' :: body ++ "\nendobj\n".data)).1,
       some pdf.length ::
         (emitObjs (i + 1) rest (pdf ++ objToken i ++ '\n' :: body ++ "\nendobj\n".data)).2) :=
  rfl

theorem emitObjs_extends (objs : List (Option (List Char))) :
    ∀ (i : ℕ) (pdf : List Char), pdf <+: (emitObjs i objs pdf).1 := by
  induction objs with
  | nil => intro i pdf; exact List.prefix_refl _
  | cons o rest ih =>
    intro i pdf
    cases o with
    | none =>
        rw [emitObjs_cons_none]
        exact ih (i + 1) pdf
    | some body =>
        rw [emitObjs_cons_some]
        refine List.IsPrefix.trans ?_
          (ih (i + 1) (pdf ++ objToken i ++ '\n' :: body ++ "\nendobj\n".data))
        rw [List.append_assoc, List.append_assoc]
        exact List.prefix_append pdf _

theorem emitObjs_get (objs : List (Option (List Char))) :
    ∀ (i : ℕ) (pdf : List Char) (j : ℕ) (body : List Char),
      objs.get? j = some (some body) →
      ∃ off, (emitObjs i objs pdf).2.get? j = some (some off) ∧
        objToken (i + j) <+: (emitObjs i objs pdf).1.drop off := by
  induction objs with
  | nil =>
      intro i pdf j body h
      simp at h
  | cons o rest ih =>
    intro i pdf j body h
    cases j with
    | zero =>
        simp only [List.get?_cons_zero, Option.some_inj] at h
        subst h
        rw [emitObjs_cons_some]
        refine ⟨pdf.length, rfl, ?_⟩
        obtain ⟨t, ht⟩ :=
          emitObjs_extends rest (i + 1) (pdf ++ objToken i ++ '\n' :: body ++ "\nendobj\n".data)
        rw [← ht, Nat.add_zero]
        simp only [List.append_assoc]
        rw [List.drop_left]
        exact List.prefix_append _ _
    | succ jj =>
        simp only [List.get?_cons_succ] at h
        cases o with
        | none =>
            obtain ⟨off, h1, h2⟩ := ih (i + 1) pdf jj body h
            rw [emitObjs_cons_none]
            refine ⟨off, by simpa using h1, ?_⟩
            have hidx : i + (jj + 1) = (i + 1) + jj := by omega
            rw [hidx]
            exact h2
        | some b0 =>
            obtain ⟨off, h1, h2⟩ :=
              ih (i + 1) (pdf ++ objToken i ++ '\n' :: b0 ++ "\nendobj\n".data) jj body h
            rw [emitObjs_cons_some]
            refine ⟨off, by simpa using h1, ?_⟩
            have hidx : i + (jj + 1) = (i + 1) + jj := by omega
            rw [hidx]
            exact h2

/-- C1: for every serialized document (any list of object bodies, every
allocated reference receiving a body) and every reference i with a body,
the recorded cross-reference offset for i is rendered as the 10-digit
zero-padded table line, and the token "i 0 obj" begins exactly at that byte
offset of the final output. -/
theorem generatePDF_xref_offsets (objs : List (Option (List Char))) (cat i : ℕ)
    (body : List Char) (h : objs.get? i = some (some body)) :
    (xrefEntries objs).get? i = some (some (xrefEntry objs i)) ∧
    ((xrefEntries objs).map
        (fun o => xrefLine (match o with | some off => off | none => 0))).get? i
      = some (padTo10 (natToChars (xrefEntry objs i)) ++ " 00000 n \n".data) ∧
    objToken (i + 1) <+: (generatePDFBytes cat objs).drop (xrefEntry objs i) := by
  obtain ⟨off, h1, h2⟩ := emitObjs_get objs 1 pdfHeader i body h
  have hxe : (xrefEntries objs).get? i = some (some off) := h1
  have hentry : xrefEntry objs i = off := by
    unfold xrefEntry
    rw [hxe]
  refine ⟨by rw [hentry]; exact hxe, ?_, ?_⟩
  · rw [List.get?_map, hxe, hentry]
    rfl
  · rw [hentry]
    have hidx : i + 1 = 1 + i := by omega
    rw [hidx]
    simp only [generatePDFBytes, List.append_assoc]
    rw [List.drop_append_eq_append_drop]
    exact h2.trans (List.prefix_append _ _)

/-- C1 witness: a two-object document; the second object's token sits at its
recorded offset. -/
theorem generatePDF_xref_offsets_witness :
    ([some "<<A>>".data, some "<<B>>".data].get? 1 = some (some "<<B>>".data)) ∧
    objToken 2 <+:
      (generatePDFBytes 1 [some "<<A>>".data, some "<<B>>".data]).drop
        (xrefEntry [some "<<A>>".data, some "<<B>>".data] 1) :=
  ⟨rfl, (generatePDF_xref_offsets [some "<<A>>".data, some "<<B>>".data] 1 1
    "<<B>>".data rfl).2.2⟩

theorem goodLine1 (x : JSNum) (tail : List Char) (ht : ∀ c ∈ tail, goodChar c) :
    ∀ c ∈ formatNumber x ++ tail, goodChar c := by
  intro c hc
  rcases List.mem_append.1 hc with hc | hc
  · exact goodChar_formatNumber hc
  · exact ht c hc

theorem goodLine2 (x y : JSNum) (tail : List Char) (ht : ∀ c ∈ tail, goodChar c) :
    ∀ c ∈ formatNumber x ++ ' ' :: formatNumber y ++ tail, goodChar c := by
  intro c hc
  simp only [List.mem_append, List.mem_cons, or_assoc] at hc
  rcases hc with hc | rfl | hc | hc
  · exact goodChar_formatNumber hc
  · decide
  · exact goodChar_formatNumber hc
  · exact ht c hc

theorem goodLine3 (x y z : JSNum) (tail : List Char) (ht : ∀ c ∈ tail, goodChar c) :
    ∀ c ∈ formatNumber x ++ ' ' :: formatNumber y ++ ' ' :: formatNumber z ++ tail,
      goodChar c := by
  intro c hc
  simp only [List.mem_append, List.mem_cons, or_assoc] at hc
  rcases hc with hc | rfl | hc | rfl | hc | hc
  · exact goodChar_formatNumber hc
  · decide
  · exact goodChar_formatNumber hc
  · decide
  · exact goodChar_formatNumber hc
  · exact ht c hc

theorem goodLine4 (x y z w : JSNum) (tail : List Char) (ht : ∀ c ∈ tail, goodChar c) :
    ∀ c ∈ formatNumber x ++ ' ' :: formatNumber y ++ ' ' :: formatNumber z ++ ' ' ::
      formatNumber w ++ tail, goodChar c := by
  intro c hc
  simp only [List.mem_append, List.mem_cons, or_assoc] at hc
  rcases hc with hc | rfl | hc | rfl | hc | rfl | hc | hc
  · exact goodChar_formatNumber hc
  · decide
  · exact goodChar_formatNumber hc
  · decide
  · exact goodChar_formatNumber hc
  · decide
  · exact goodChar_formatNumber hc
  · exact ht c hc

theorem goodLine6 (x y z w u v : JSNum) (tail : List Char) (ht : ∀ c ∈ tail, goodChar c) :
    ∀ c ∈ formatNumber x ++ ' ' :: formatNumber y ++ ' ' :: formatNumber z ++ ' ' ::
      formatNumber w ++ ' ' :: formatNumber u ++ ' ' :: formatNumber v ++ tail,
      goodChar c := by
  intro c hc
  simp only [List.mem_append, List.mem_cons, or_assoc] at hc
  rcases hc with hc | rfl | hc | rfl | hc | rfl | hc | rfl | hc | rfl | hc | hc
  · exact goodChar_formatNumber hc
  · decide
  · exact goodChar_formatNumber hc
  · decide
  · exact goodChar_formatNumber hc
  · decide
  · exact goodChar_formatNumber hc
  · decide
  · exact goodChar_formatNumber hc
  · decide
  · exact goodChar_formatNumber hc
  · exact ht c hc

theorem goodSlashLine (name tail : List Char) (hn : ∀ c ∈ name, goodChar c)
    (ht : ∀ c ∈ tail, goodChar c) : ∀ c ∈ '/' :: name ++ tail, goodChar c := by
  intro c hc
  simp only [List.mem_cons, List.mem_append, or_assoc] at hc
  rcases hc with rfl | hc | hc
  · decide
  · exact hn c hc
  · exact ht c hc

theorem goodCsName (n : ℕ) : ∀ c ∈ PDFDocument.csName n, goodChar c := by
  intro c hc
  rcases List.mem_append.1 hc with hc | hc
  · fin_cases hc <;> decide
  · exact goodChar_natToChars hc

theorem goodLabName (n : ℕ) : ∀ c ∈ PDFDocument.labName n, goodChar c := by
  intro c hc
  rcases List.mem_append.1 hc with hc | hc
  · fin_cases hc <;> decide
  · exact goodChar_natToChars hc

theorem mem_setKey {α : Type} {l : List (List Char × α)} {k : List Char} {v : α} {p}
    (hp : p ∈ setKey l k v) : p ∈ l ∨ p.2 = v := by
  induction l with
  | nil =>
      rw [setKey] at hp
      rcases List.mem_singleton.1 hp with rfl
      exact Or.inr rfl
  | cons q t ih =>
    by_cases hq : q.1 = k
    · simp only [setKey, hq, if_true] at hp
      rcases List.mem_cons.1 hp with rfl | hp
      · simp
      · exact Or.inl (List.mem_cons_of_mem _ hp)
    · simp only [setKey, hq, if_false] at hp
      rcases List.mem_cons.1 hp with rfl | hp
      · exact Or.inl (List.mem_cons_self _ _)
      · rcases ih hp with h | h
        · exact Or.inl (List.mem_cons_of_mem _ h)
        · exact Or.inr h

theorem mem_setKey_key {α : Type} {l : List (List Char × α)} {k : List Char} {v : α} {p}
    (hp : p ∈ setKey l k v) : (∃ q ∈ l, p.1 = q.1) ∨ p.1 = k := by
  induction l with
  | nil =>
      rw [setKey] at hp
      rcases List.mem_singleton.1 hp with rfl
      exact Or.inr rfl
  | cons q t ih =>
    by_cases hq : q.1 = k
    · simp only [setKey, hq, if_true] at hp
      rcases List.mem_cons.1 hp with rfl | hp
      · exact Or.inr rfl
      · exact Or.inl ⟨_, List.mem_cons_of_mem _ hp, rfl⟩
    · simp only [setKey, hq, if_false] at hp
      rcases List.mem_cons.1 hp with rfl | hp
      · exact Or.inl ⟨q, List.mem_cons_self _ _, rfl⟩
      · rcases ih hp with ⟨r, hr, he⟩ | h
        · exact Or.inl ⟨r, List.mem_cons_of_mem _ hr, he⟩
        · exact Or.inr h

theorem lookupKey_mem {α : Type} {l : List (List Char × α)} {k : List Char} {v : α}
    (h : lookupKey l k = some v) : ∃ q ∈ l, q.2 = v := by
  induction l with
  | nil => simp [lookupKey] at h
  | cons q t ih =>
    by_cases hq : q.1 = k
    · simp only [lookupKey, hq, if_true, Option.some_inj] at h
      exact ⟨q, List.mem_cons_self _ _, h⟩
    · simp only [lookupKey, hq, if_false] at h
      obtain ⟨r, hr, he⟩ := ih h
      exact ⟨r, List.mem_cons_of_mem _ hr, he⟩

theorem jsLt_one_one : JSNum.jsLt (.fin 1) (.fin 1) = false := by
  with_unfolding_all rfl

theorem push_docGood {d : PDFDocument} {s : List Char} (h : DocGood d)
    (hs : ∀ c ∈ s, goodChar c) : DocGood (d.push s) := by
  refine ⟨?_, h.opFill, h.opStroke, h.spots, h.css, h.colorFill, h.colorStroke⟩
  intro t ht
  rcases List.mem_append.1 ht with ht | ht
  · exact h.stream t ht
  · rcases List.mem_singleton.1 ht with rfl
    exact hs

theorem moveTo_good {d : PDFDocument} (h : DocGood d) (x y : JSNum) :
    DocGood (d.moveTo x y) :=
  push_docGood h (goodLine2 x y _ (by decide))

theorem lineTo_good {d : PDFDocument} (h : DocGood d) (x y : JSNum) :
    DocGood (d.lineTo x y) :=
  push_docGood h (goodLine2 x y _ (by decide))

theorem bezierCurveTo_good {d : PDFDocument} (h : DocGood d) (a b c e x y : JSNum) :
    DocGood (d.bezierCurveTo a b c e x y) :=
  push_docGood h (goodLine6 a b c e x y _ (by decide))

theorem closePath_good {d : PDFDocument} (h : DocGood d) : DocGood d.closePath :=
  push_docGood h (by decide)

theorem rect_good {d : PDFDocument} (h : DocGood d) (x y w hh : JSNum) :
    DocGood (d.rect x y w hh) :=
  push_docGood h (goodLine4 x y w hh _ (by decide))

theorem circle_good {d : PDFDocument} (h : DocGood d) (cx cy r : JSNum) :
    DocGood (d.circle cx cy r) :=
  closePath_good (bezierCurveTo_good (bezierCurveTo_good (bezierCurveTo_good
    (bezierCurveTo_good (moveTo_good h _ _) _ _ _ _ _ _) _ _ _ _ _ _) _ _ _ _ _ _)
    _ _ _ _ _ _)

theorem ellipse_good {d : PDFDocument} (h : DocGood d) (cx cy rx ry : JSNum) :
    DocGood (d.ellipse cx cy rx ry) :=
  closePath_good (bezierCurveTo_good (bezierCurveTo_good (bezierCurveTo_good
    (bezierCurveTo_good (moveTo_good h _ _) _ _ _ _ _ _) _ _ _ _ _ _) _ _ _ _ _ _)
    _ _ _ _ _ _)

theorem transform_good {d : PDFDocument} (h : DocGood d) (a b c dd e f : JSNum) :
    DocGood (d.transform a b c dd e f) := by
  have h1 := push_docGood h (goodLine6 a b c dd e f " cm".data (by decide))
  exact ⟨h1.stream, h1.opFill, h1.opStroke, h1.spots, h1.css, h1.colorFill, h1.colorStroke⟩

theorem save_good {d : PDFDocument} (h : DocGood d) : DocGood d.save := by
  have h1 := push_docGood h (show ∀ c ∈ "q".data, goodChar c by decide)
  exact ⟨h1.stream, h1.opFill, h1.opStroke, h1.spots, h1.css, h1.colorFill, h1.colorStroke⟩

theorem restore_good {d : PDFDocument} (h : DocGood d) : DocGood d.restore := by
  have h1 := push_docGood h (show ∀ c ∈ "Q".data, goodChar c by decide)
  unfold PDFDocument.restore
  cases d.ctmStack.getLast? with
  | some m =>
      exact ⟨h1.stream, h1.opFill, h1.opStroke, h1.spots, h1.css, h1.colorFill,
        h1.colorStroke⟩
  | none => exact h1

theorem defineSpotColor_good {d : PDFDocument} (h : DocGood d) (n : List Char)
    (c m y k : JSNum) : DocGood (d.defineSpotColor n c m y k) := by
  refine ⟨h.stream, h.opFill, h.opStroke, ?_, ?_, h.colorFill, h.colorStroke⟩
  · intro p hp
    simp only [PDFDocument.defineSpotColor] at hp
    rcases mem_setKey hp with hp | hp
    · exact h.spots p hp
    · rw [hp]
      exact goodCsName _
  · intro p hp
    simp only [PDFDocument.defineSpotColor] at hp
    rcases mem_setKey_key hp with ⟨q, hq, he⟩ | hp
    · rw [he]
      exact h.css q hq
    · rw [hp]
      exact goodCsName _

theorem defineLabSpotColor_good {d : PDFDocument} (h : DocGood d) (n : List Char)
    (L a b : JSNum) : DocGood (d.defineLabSpotColor n L a b) := by
  refine ⟨h.stream, h.opFill, h.opStroke, ?_, ?_, h.colorFill, h.colorStroke⟩
  · intro p hp
    simp only [PDFDocument.defineLabSpotColor] at hp
    rcases mem_setKey hp with hp | hp
    · exact h.spots p hp
    · rw [hp]
      exact goodCsName _
  · intro p hp
    simp only [PDFDocument.defineLabSpotColor] at hp
    rcases mem_setKey_key hp with ⟨q, hq, he⟩ | hp
    · rw [he]
      exact h.css q hq
    · rw [hp]
      exact goodCsName _

theorem fillSpotColor_good {d : PDFDocument} (h : DocGood d) (n : List Char) (t : JSNum) :
    DocGood (d.fillSpotColor n t) := by
  unfold PDFDocument.fillSpotColor
  cases hl : lookupKey d.spotColors n with
  | none => exact h
  | some sc =>
      obtain ⟨q, hq, he⟩ := lookupKey_mem hl
      refine ⟨h.stream, h.opFill, h.opStroke, h.spots, h.css, ?_, h.colorStroke⟩
      intro c hc
      exact h.spots q hq c (by rw [he]; exact hc)

theorem strokeSpotColor_good {d : PDFDocument} (h : DocGood d) (n : List Char)
    (t : JSNum) : DocGood (d.strokeSpotColor n t) := by
  unfold PDFDocument.strokeSpotColor
  cases hl : lookupKey d.spotColors n with
  | none => exact h
  | some sc =>
      obtain ⟨q, hq, he⟩ := lookupKey_mem hl
      refine ⟨h.stream, h.opFill, h.opStroke, h.spots, h.css, h.colorFill, ?_⟩
      intro c hc
      exact h.spots q hq c (by rw [he]; exact hc)

theorem ensureLab_good {d : PDFDocument} (h : DocGood d) :
    (∀ c ∈ d.ensureLabColorSpace.1, goodChar c) ∧ DocGood d.ensureLabColorSpace.2 := by
  unfold PDFDocument.ensureLabColorSpace
  cases hf : d.resColorSpace.find? (fun p => p.2 = CSResource.labGeneric) with
  | some p =>
      exact ⟨fun c hc => h.css p (List.mem_of_find?_eq_some hf) c hc, h⟩
  | none =>
      refine ⟨goodLabName _, ?_⟩
      refine ⟨h.stream, h.opFill, h.opStroke, h.spots, ?_, h.colorFill, h.colorStroke⟩
      intro q hq
      rcases mem_setKey_key hq with ⟨r, hr, he⟩ | hq
      · rw [he]
        exact h.css r hr
      · rw [hq]
        exact goodLabName _

theorem setColor_good {d : PDFDocument} (h : DocGood d) {col : Color}
    (hcol : colorGood col) (fl : Bool) : DocGood (d.setColor col fl) := by
  cases col with
  | rgb r g bb => exact push_docGood h (goodLine3 r g bb _ (by cases fl <;> decide))
  | cmyk c m y k => exact push_docGood h (goodLine4 c m y k _ (by cases fl <;> decide))
  | lab L a bb =>
      obtain ⟨hn, hd⟩ := ensureLab_good h
      exact push_docGood
        (push_docGood hd (goodSlashLine _ _ hn (by cases fl <;> decide)))
        (goodLine3 _ _ _ _ (by cases fl <;> decide))
  | spot nm tint sc =>
      exact push_docGood
        (push_docGood h (goodSlashLine _ _ hcol (by cases fl <;> decide)))
        (goodLine1 tint _ (by cases fl <;> decide))

theorem setFillOpacity_skip {d : PDFDocument} (h : d.currentOpacityFill = .fin 1) :
    d.setFillOpacity = d := by
  unfold PDFDocument.setFillOpacity
  rw [h, jsLt_one_one]
  rfl

theorem setStrokeOpacity_skip {d : PDFDocument} (h : d.currentOpacityStroke = .fin 1) :
    d.setStrokeOpacity = d := by
  unfold PDFDocument.setStrokeOpacity
  rw [h, jsLt_one_one]
  rfl

theorem fill_good {d : PDFDocument} (h : DocGood d) (ev : Bool) : DocGood (d.fill ev) := by
  have h1 := setColor_good h h.colorFill true
  unfold PDFDocument.fill
  rw [setFillOpacity_skip h1.opFill]
  exact push_docGood h1 (by cases ev <;> decide)

theorem stroke_good {d : PDFDocument} (h : DocGood d) : DocGood d.stroke := by
  have h1 := setColor_good h h.colorStroke false
  unfold PDFDocument.stroke
  rw [setStrokeOpacity_skip h1.opStroke]
  exact push_docGood (push_docGood h1 (goodLine1 _ _ (by decide))) (by decide)

theorem fillAndStroke_good {d : PDFDocument} (h : DocGood d) (ev : Bool) :
    DocGood (d.fillAndStroke ev) := by
  have h1 := setColor_good h h.colorFill true
  have h2 := setColor_good h1 h1.colorStroke false
  simp only [PDFDocument.fillAndStroke]
  rw [setFillOpacity_skip h2.opFill, setStrokeOpacity_skip h2.opStroke]
  exact push_docGood (push_docGood h2 (goodLine1 _ _ (by decide))) (by cases ev <;> decide)

open DrawOp in
theorem applyOp_good {d : PDFDocument} (h : DocGood d) (op : DrawOp) :
    DocGood (applyOp d op) := by
  cases op with
  | opMoveTo x y => exact moveTo_good h x y
  | opLineTo x y => exact lineTo_good h x y
  | opBezierCurveTo a b c e x y => exact bezierCurveTo_good h a b c e x y
  | opQuadraticCurveTo a b x y => exact bezierCurveTo_good h a b a b x y
  | opClosePath => exact closePath_good h
  | opRect x y w hh => exact rect_good h x y w hh
  | opCircle cx cy r => exact circle_good h cx cy r
  | opEllipse cx cy rx ry => exact ellipse_good h cx cy rx ry
  | opTransform a b c e g f => exact transform_good h a b c e g f
  | opTranslate x y => exact transform_good h _ _ _ _ x y
  | opScale sx sy => exact transform_good h sx _ _ sy _ _
  | opSave => exact save_good h
  | opRestore => exact restore_good h
  | opLineWidth w =>
      exact ⟨h.stream, h.opFill, h.opStroke, h.spots, h.css, h.colorFill, h.colorStroke⟩
  | opFillColorRGB r g b =>
      exact ⟨h.stream, h.opFill, h.opStroke, h.spots, h.css, True.intro, h.colorStroke⟩
  | opStrokeColorRGB r g b =>
      exact ⟨h.stream, h.opFill, h.opStroke, h.spots, h.css, h.colorFill, True.intro⟩
  | opFillColorCMYK c m y k =>
      exact ⟨h.stream, h.opFill, h.opStroke, h.spots, h.css, True.intro, h.colorStroke⟩
  | opStrokeColorCMYK c m y k =>
      exact ⟨h.stream, h.opFill, h.opStroke, h.spots, h.css, h.colorFill, True.intro⟩
  | opFillColorLab L a b =>
      exact ⟨h.stream, h.opFill, h.opStroke, h.spots, h.css, True.intro, h.colorStroke⟩
  | opStrokeColorLab L a b =>
      exact ⟨h.stream, h.opFill, h.opStroke, h.spots, h.css, h.colorFill, True.intro⟩
  | opDefineSpotColor n c m y k => exact defineSpotColor_good h n c m y k
  | opDefineLabSpotColor n L a b => exact defineLabSpotColor_good h n L a b
  | opFillSpotColor n t => exact fillSpotColor_good h n t
  | opStrokeSpotColor n t => exact strokeSpotColor_good h n t
  | opFill ev => exact fill_good h ev
  | opStroke => exact stroke_good h
  | opFillAndStroke ev => exact fillAndStroke_good h ev

theorem runOps_good {d : PDFDocument} (h : DocGood d) (ops : List DrawOp) :
    DocGood (runOps d ops) := by
  induction ops generalizing d with
  | nil => exact h
  | cons op rest ih => exact ih (applyOp_good h op)

theorem newDoc_good : DocGood PDFDocument.newDoc := by
  refine ⟨?_, rfl, rfl, ?_, ?_, True.intro, True.intro⟩ <;> intro p hp <;> cases hp

theorem joinNL_good {l : List (List Char)} (h : ∀ s ∈ l, ∀ c ∈ s, goodChar c) :
    ∀ c ∈ joinNL l, goodChar c := by
  induction l with
  | nil => intro c hc; cases hc
  | cons s t ih =>
      cases t with
      | nil =>
          intro c hc
          exact h s (List.mem_cons_self _ _) c hc
      | cons s2 t2 =>
          intro c hc
          have hc2 : c ∈ s ++ '\n' :: joinNL (s2 :: t2) := hc
          rcases List.mem_append.1 hc2 with hc | hc
          · exact h s (List.mem_cons_self _ _) c hc
          · rcases List.mem_cons.1 hc with rfl | hc
            · decide
            · exact ih (fun u hu => h u (List.mem_cons_of_mem _ hu)) c hc

/-- C4: for every sequence of drawing-API calls with arbitrary numeric
arguments (including NaN and the infinities), every number emitted into the
content stream goes through the formatter, which maps non-finite values to
0, so the joined content stream never contains the token NaN or the token
Infinity. -/
theorem contentStream_no_nan_infinity (ops : List DrawOp) :
    ¬ List.IsInfix "NaN".data (joinNL (runOps PDFDocument.newDoc ops).contentStream) ∧
    ¬ List.IsInfix "Infinity".data (joinNL (runOps PDFDocument.newDoc ops).contentStream) := by
  have hg := joinNL_good (runOps_good newDoc_good ops).stream
  constructor
  · intro hinf
    have ha : 'a' ∈ joinNL (runOps PDFDocument.newDoc ops).contentStream :=
      hinf.subset (by decide)
    exact (hg 'a' ha).1 rfl
  · intro hinf
    have ha : 'I' ∈ joinNL (runOps PDFDocument.newDoc ops).contentStream :=
      hinf.subset (by decide)
    exact (hg 'I' ha).2 rfl
